import Mathlib

/-!
# KMSDRM dumb-buffer framebuffer path (`src/video/kmsdrm/SDL_kmsdrmframebuffer.c`)

A shallow embedding of the non-accelerated presentation path of the KMSDRM
video driver: building and tearing down the ring of dumb buffers, the
one-time CRTC set-up, handing out the writable buffer and page flipping.

The kernel (DRM ioctls, `mmap`) and the flip-wait helper are external to the
file; they are a parameter `Kernel` whose answers may depend on the whole
history of calls made so far.  Every external call is appended, together
with what it returned, to the log `State.calls`, oldest call first.
`SDL_SetError` only records a message and is left out.  `KMSDRM_DRMFB_COUNT`
is the parameter `N`.
-/

namespace KMSDRM

/-! ## Data model -/

/-- Struct `KMSDRM_DrmFB`: one ring slot.  `handle`, `id` and `stride` are `uint32_t`,
`size` is `uint64_t`, `map` is a pointer (`0` is `NULL`). -/
structure KMSDRM_DrmFB where
  handle : Nat
  id : Nat
  stride : Nat
  size : Nat
  map : Nat
  deriving DecidableEq

/-- The slot after `memset(drm_fb, 0, sizeof(*drm_fb))`. -/
def KMSDRM_DrmFB.zero : KMSDRM_DrmFB :=
  { handle := 0, id := 0, stride := 0, size := 0, map := 0 }

/-- What `DRM_IOCTL_MODE_CREATE_DUMB` writes back into `creq` on success. -/
structure CreateDumb where
  pitch : Nat
  size : Nat
  handle : Nat
  deriving DecidableEq

/-- One external call together with its result.  `none` results stand for a
non-zero `err` (for `mmap`: `MAP_FAILED`); `ok = true` stands for `err == 0`.
The wait is passed `wdata`, and the page flip the address of
`wdata->waiting_for_flip` as its user data: `waiting` is the value of
`waiting_for_flip` when the wait is called, `flag` of `waitPageFlip` the value
when it returns, and `flag` of `pageFlip` the value when the request is made. -/
inductive Call where
  | createDumb (width height bpp : Nat) (ret : Option CreateDumb)
  | addFB (width height depth bpp pitch handle : Nat) (ret : Option Nat)
  | mapDumb (handle : Nat) (ret : Option Nat)
  | mmap (length offset : Nat) (ret : Option Nat)
  | memset (addr length : Nat)
  | rmFB (fb_id : Nat)
  | destroyDumb (handle : Nat)
  | setCrtc (crtc_id fb_id x y conn_id count mode : Nat) (ok : Bool)
  | waitPageFlip (timeout : Int) (waiting : Bool) (ret : Bool) (flag : Bool)
  | pageFlip (crtc_id fb_id : Nat) (flag : Bool) (ok : Bool)
  deriving DecidableEq

/-- The outside world.  Each answer may depend on the calls logged so far and
on the arguments of the request.

The helper `KMSDRM_WaitPageFlip` is defined outside the file; it is the field
`waitPageFlip`, which receives the timeout and the current `waiting_for_flip`
and answers with its return value and the value it leaves in
`waiting_for_flip`.  Nothing else of the window is within its reach: the wait
handles the completion event, and that event clears this flag only.  The field
`pageFlip` receives the CRTC, the framebuffer id and the value its user data
points to, that is `waiting_for_flip` at the time of the request. -/
structure Kernel where
  createDumb : List Call → Nat → Nat → Nat → Option CreateDumb
  addFB : List Call → Nat → Nat → Nat → Nat → Nat → Nat → Option Nat
  mapDumb : List Call → Nat → Option Nat
  mmap : List Call → Nat → Nat → Option Nat
  setCrtc : List Call → Nat → Nat → Bool
  pageFlip : List Call → Nat → Nat → Bool → Bool
  waitPageFlip : List Call → Int → Bool → Bool × Bool

/-- The fields of `vdata` the file reads, and `displaydata->cur_mode` (a mode
descriptor, kept as a number). -/
structure SDL_VideoData where
  drm_fd : Nat
  crtc_id : Nat
  saved_conn_id : Nat
  cur_mode : Nat
  deriving DecidableEq

/-- The window with its `SDL_WindowData` (`driverdata`) inlined, and the log of
external calls.  `drm_fbs` is the array `drm_fbs[KMSDRM_DRMFB_COUNT]`. -/
structure State where
  calls : List Call
  w : Int
  h : Int
  surface_valid : Bool
  drm_fbs : List KMSDRM_DrmFB
  front_drm_fb : Nat
  crtc_ready : Bool
  waiting_for_flip : Bool
  deriving DecidableEq

/-- The pixel formats that matter here. -/
inductive SDL_PixelFormatEnum where
  | SDL_PIXELFORMAT_UNKNOWN
  | SDL_PIXELFORMAT_RGB888
  deriving DecidableEq

/-- The three out-parameters of `KMSDRM_CreateWindowFramebuffer`. -/
structure Surface where
  format : SDL_PixelFormatEnum
  pixels : Nat
  pitch : Int
  deriving DecidableEq

/-- The cast `(uint32_t)x` of an `int`. -/
def toUint32 (x : Int) : Nat := (x % 4294967296).toNat

/-- The cast `(int)x` of a `uint32_t`. -/
def toInt (x : Nat) : Int :=
  if x % 4294967296 < 2147483648 then ((x % 4294967296 : Nat) : Int)
  else ((x % 4294967296 : Nat) : Int) - 4294967296

/-- Read `drm_fbs[i]`.  Outside the array, where C leaves the read undefined, the
zero slot is returned. -/
def State.fb (s : State) (i : Nat) : KMSDRM_DrmFB := s.drm_fbs.getD i KMSDRM_DrmFB.zero

/-- Write `drm_fbs[i]`. -/
def State.setFb (s : State) (i : Nat) (fb : KMSDRM_DrmFB) : State :=
  { s with drm_fbs := s.drm_fbs.set i fb }

/-- Append one call to the log. -/
def State.log (s : State) (c : Call) : State := { s with calls := s.calls ++ [c] }

/-! ## The functions of the file -/

/-- Function `KMSDRM_CreateDrmFB`: allocate, register and map slot `fb_num`.  The file
descriptor `vdata->drm_fd` is the same in every call and is left out of the log. -/
def KMSDRM_CreateDrmFB (k : Kernel) (s : State) (fb_num : Nat) :
    Bool × State :=
  let width := toUint32 s.w
  let height := toUint32 s.h
  let creq := k.createDumb s.calls width height 32
  let s := s.log (Call.createDumb width height 32 creq)
  match creq with
  | none => (false, s)
  | some creq =>
    let drm_fb := { s.fb fb_num with stride := creq.pitch, size := creq.size, handle := creq.handle }
    let s := s.setFb fb_num drm_fb
    let fb_id := k.addFB s.calls width height 24 32 drm_fb.stride drm_fb.handle
    let s := s.log (Call.addFB width height 24 32 drm_fb.stride drm_fb.handle fb_id)
    match fb_id with
    | none => (false, s)
    | some fb_id =>
      let drm_fb := { drm_fb with id := fb_id }
      let s := s.setFb fb_num drm_fb
      let mreq := k.mapDumb s.calls drm_fb.handle
      let s := s.log (Call.mapDumb drm_fb.handle mreq)
      match mreq with
      | none => (false, s)
      | some offset =>
        let map := k.mmap s.calls drm_fb.size offset
        let s := s.log (Call.mmap drm_fb.size offset map)
        match map with
        | none => (false, s.setFb fb_num { drm_fb with map := 0 })
        | some addr =>
          let s := s.setFb fb_num { drm_fb with map := addr }
          (true, s.log (Call.memset addr drm_fb.size))

/-- Function `KMSDRM_DestroyDrmFB`: unregister and free slot `fb_num`, then clear it.
`dreq` is zero-filled and passed to the ioctl as it is. -/
def KMSDRM_DestroyDrmFB (s : State) (fb_num : Nat) : State :=
  let drm_fb := s.fb fb_num
  let s := if drm_fb.id ≠ 0 then s.log (Call.rmFB drm_fb.id) else s
  let s :=
    if drm_fb.handle ≠ 0 then
      let dreq : Nat := 0
      s.log (Call.destroyDumb dreq)
    else s
  s.setFb fb_num KMSDRM_DrmFB.zero

/-- The loop of `KMSDRM_CreateDrmFBs`, at `fb_num` with `n` iterations left. -/
def KMSDRM_CreateDrmFBs.loop (k : Kernel) :
    Nat → Nat → State → Bool × State
  | _, 0, s => (true, s)
  | fb_num, n + 1, s =>
    match KMSDRM_CreateDrmFB k s fb_num with
    | (false, s) => (false, s)
    | (true, s) => KMSDRM_CreateDrmFBs.loop k (fb_num + 1) n s

/-- Function `KMSDRM_CreateDrmFBs`, with `N` for `KMSDRM_DRMFB_COUNT`. -/
def KMSDRM_CreateDrmFBs (k : Kernel) (N : Nat) (s : State) :
    Bool × State :=
  KMSDRM_CreateDrmFBs.loop k 0 N s

/-- The loop of `KMSDRM_DestroyDrmFBs`, at `fb_num` with `n` iterations left. -/
def KMSDRM_DestroyDrmFBs.loop : Nat → Nat → State → State
  | _, 0, s => s
  | fb_num, n + 1, s => KMSDRM_DestroyDrmFBs.loop (fb_num + 1) n (KMSDRM_DestroyDrmFB s fb_num)

/-- Function `KMSDRM_DestroyDrmFBs`, with `N` for `KMSDRM_DRMFB_COUNT`. -/
def KMSDRM_DestroyDrmFBs (N : Nat) (s : State) : State :=
  KMSDRM_DestroyDrmFBs.loop 0 N s

/-- Function `KMSDRM_DestroyWindowFramebuffer`: tear the ring down, then store
`SDL_TRUE` in `crtc_ready`. -/
def KMSDRM_DestroyWindowFramebuffer (N : Nat) (s : State) : State :=
  let s := KMSDRM_DestroyDrmFBs N s
  { s with crtc_ready := true }

/-- Function `KMSDRM_InitCrtc`: build the ring and hand slot 0 to the controller,
unless `crtc_ready` is set; on failure tear everything down. -/
def KMSDRM_InitCrtc (k : Kernel) (vdata : SDL_VideoData) (N : Nat) (s : State) : Bool × State :=
  if s.crtc_ready then (true, s)
  else
    match KMSDRM_CreateDrmFBs k N s with
    | (false, s) => (false, KMSDRM_DestroyWindowFramebuffer N s)
    | (true, s) =>
      let s := { s with front_drm_fb := 0 }
      let drm_fb := s.fb s.front_drm_fb
      let ok := k.setCrtc s.calls vdata.crtc_id drm_fb.id
      let s := s.log
        (Call.setCrtc vdata.crtc_id drm_fb.id 0 0 vdata.saved_conn_id 1 vdata.cur_mode ok)
      if ok then
        (true, { s with front_drm_fb := (s.front_drm_fb + 1) % N, crtc_ready := true })
      else
        (false, KMSDRM_DestroyWindowFramebuffer N s)

/-- Function `KMSDRM_CreateWindowFramebuffer`: the return value and, when it is `0`, the
values stored through `format`, `pixels` and `pitch`. -/
def KMSDRM_CreateWindowFramebuffer (k : Kernel) (vdata : SDL_VideoData) (N : Nat) (s : State) :
    (Int × Option Surface) × State :=
  let r : Bool × State := if s.crtc_ready then (true, s) else KMSDRM_InitCrtc k vdata N s
  match r with
  | (false, s) => ((-1, none), s)
  | (true, s) =>
    let drm_fb := s.fb s.front_drm_fb
    ((0, some { format := SDL_PixelFormatEnum.SDL_PIXELFORMAT_RGB888,
                pixels := drm_fb.map,
                pitch := toInt drm_fb.stride }), s)

/-- Function `KMSDRM_UpdateWindowFramebuffer`: wait for the outstanding flip, queue
a flip to the front slot, advance the front index. -/
def KMSDRM_UpdateWindowFramebuffer (k : Kernel) (vdata : SDL_VideoData) (N : Nat) (s : State) :
    Int × State :=
  let drm_fb := s.fb s.front_drm_fb
  let wait := k.waitPageFlip s.calls (-1) s.waiting_for_flip
  let s := { s.log (Call.waitPageFlip (-1) s.waiting_for_flip wait.1 wait.2) with
             waiting_for_flip := wait.2 }
  if wait.1 = false then (0, s)
  else
    let s := { s with waiting_for_flip := true }
    let ok := k.pageFlip s.calls vdata.crtc_id drm_fb.id s.waiting_for_flip
    let s := s.log (Call.pageFlip vdata.crtc_id drm_fb.id s.waiting_for_flip ok)
    if ok = false then
      (-1, { s with waiting_for_flip := false })
    else
      (0, { s with front_drm_fb := (s.front_drm_fb + 1) % N, surface_valid := false })

/-! ## Sequences of calls -/

/-- The state after `n` consecutive calls of `KMSDRM_UpdateWindowFramebuffer`. -/
def presents (k : Kernel) (vdata : SDL_VideoData) (N : Nat) : Nat → State → State
  | 0, s => s
  | n + 1, s => presents k vdata N n (KMSDRM_UpdateWindowFramebuffer k vdata N s).2

/-- The three entry points of the file. -/
inductive Op where
  | acquire
  | present
  | release
  deriving DecidableEq

/-- One entry-point call; the return value is dropped. -/
def step (k : Kernel) (vdata : SDL_VideoData) (N : Nat) (s : State) : Op → State
  | Op.acquire => (KMSDRM_CreateWindowFramebuffer k vdata N s).2
  | Op.present => (KMSDRM_UpdateWindowFramebuffer k vdata N s).2
  | Op.release => KMSDRM_DestroyWindowFramebuffer N s

/-- A sequence of entry-point calls, first call first. -/
def run (k : Kernel) (vdata : SDL_VideoData) (N : Nat) (ops : List Op) (s : State) : State :=
  ops.foldl (step k vdata N) s

/-! ## Reading the log -/

/-- The framebuffer id of a page flip the kernel accepted. -/
def Call.queuedFlip : Call → Option Nat
  | Call.pageFlip _ fb_id _ true => some fb_id
  | _ => none

/-- The framebuffer ids of the accepted page flips, oldest first. -/
def queuedIds (calls : List Call) : List Nat := calls.filterMap Call.queuedFlip

/-- The framebuffer id of the last call, when that call is an accepted page flip. -/
def lastQueued (calls : List Call) : Option Nat := calls.getLast?.bind Call.queuedFlip

/-- The number of page flips accepted after the log of `s` up to the log of `t`. -/
def queuedSince (s t : State) : Nat := (queuedIds t.calls).length - (queuedIds s.calls).length

/-- A page-flip request, accepted or not. -/
def Call.isPageFlip : Call → Bool
  | Call.pageFlip _ _ _ _ => true
  | _ => false

/-- A `KMSDRM_WaitPageFlip` that returned true and left `waiting_for_flip` false. -/
def Call.isClearWait : Call → Bool
  | Call.waitPageFlip _ _ true false => true
  | _ => false

/-- A `drmModeSetCrtc` request. -/
def Call.isSetCrtc : Call → Bool
  | Call.setCrtc _ _ _ _ _ _ _ _ => true
  | _ => false

/-- A `DRM_IOCTL_MODE_CREATE_DUMB` request. -/
def Call.isCreateDumb : Call → Bool
  | Call.createDumb _ _ _ _ => true
  | _ => false

/-- A call made while building or tearing down ring slots. -/
def Call.isRing : Call → Bool
  | Call.createDumb _ _ _ _ => true
  | Call.addFB _ _ _ _ _ _ _ => true
  | Call.mapDumb _ _ => true
  | Call.mmap _ _ _ => true
  | Call.memset _ _ => true
  | Call.rmFB _ => true
  | Call.destroyDumb _ => true
  | _ => false

/-- A call that is neither a wait for a flip nor a page-flip request. -/
def Call.isQuiet : Call → Bool
  | Call.waitPageFlip _ _ _ _ => false
  | Call.pageFlip _ _ _ _ => false
  | _ => true

/-- A page-flip request made with `waiting_for_flip` already set to true. -/
def Call.isFlaggedFlip : Call → Bool
  | Call.pageFlip _ _ true _ => true
  | _ => false

/-- Every page-flip request in the list directly follows a wait that returned
true with `waiting_for_flip` false, and is made with `waiting_for_flip` true;
`prev` tells whether the call before the list was such a wait. -/
def guardedFrom : Bool → List Call → Bool
  | _, [] => true
  | prev, c :: cs =>
    (!c.isPageFlip || (prev && c.isFlaggedFlip)) && guardedFrom c.isClearWait cs

/-- The flag is set between the wait and the submission: every page-flip
request in the log directly follows a wait that returned true and left
`waiting_for_flip` false, and by the time of the request the flag is true. -/
def flipsGuarded (calls : List Call) : Bool := guardedFrom false calls

/-- Follow a log with `out` telling whether a flip is outstanding, that is
accepted by the kernel and not yet seen completed by a wait.  A wait must be
called with `waiting_for_flip` equal to `out` and leaves `out` as it leaves the
flag; a page flip must be requested with no flip outstanding and makes `out`
true when it is accepted; other calls leave `out` alone.  The result is `none`
when the log breaks one of these rules, and the final `out` otherwise. -/
def outstanding : Bool → List Call → Option Bool
  | out, [] => some out
  | out, Call.waitPageFlip _ waiting _ flag :: cs =>
    if waiting = out then outstanding flag cs else none
  | out, Call.pageFlip _ _ _ ok :: cs =>
    if out = false then outstanding ok cs else none
  | out, Call.createDumb _ _ _ _ :: cs => outstanding out cs
  | out, Call.addFB _ _ _ _ _ _ _ :: cs => outstanding out cs
  | out, Call.mapDumb _ _ :: cs => outstanding out cs
  | out, Call.mmap _ _ _ :: cs => outstanding out cs
  | out, Call.memset _ _ :: cs => outstanding out cs
  | out, Call.rmFB _ :: cs => outstanding out cs
  | out, Call.destroyDumb _ :: cs => outstanding out cs
  | out, Call.setCrtc _ _ _ _ _ _ _ _ :: cs => outstanding out cs

/-! ## Concrete kernels and states -/

/-- A kernel in which every request succeeds; the wait returns true exactly when
no flip is outstanding. -/
def kernelOk : Kernel :=
  { createDumb := fun hist w _ _ => some { pitch := 4 * w, size := 4096, handle := hist.length + 1 }
    addFB := fun hist _ _ _ _ _ _ => some (hist.length + 100)
    mapDumb := fun _ handle => some (handle * 4096)
    mmap := fun _ _ offset => some (offset + 65536)
    setCrtc := fun _ _ _ => true
    pageFlip := fun _ _ _ _ => true
    waitPageFlip := fun _ _ flag => (!flag, flag) }

/-- As `kernelOk`, but the kernel rejects every page flip. -/
def kernelNoFlip : Kernel := { kernelOk with pageFlip := fun _ _ _ _ => false }

/-- As `kernelOk`, but dumb-buffer creation fails once one buffer exists. -/
def kernelOneBuffer : Kernel :=
  { kernelOk with
    createDumb := fun hist w _ _ =>
      if hist = [] then some { pitch := 4 * w, size := 4096, handle := 7 } else none }

/-- As `kernelOk`, but the wait blocks until the outstanding flip has completed. -/
def kernelBlocking : Kernel := { kernelOk with waitPageFlip := fun _ _ _ => (true, false) }

/-- As `kernelOk`, but the wait always gives up and leaves the flag alone. -/
def kernelTimeout : Kernel := { kernelOk with waitPageFlip := fun _ _ flag => (false, flag) }

/-- Some device. -/
def vdata0 : SDL_VideoData := { drm_fd := 3, crtc_id := 40, saved_conn_id := 50, cur_mode := 0 }

/-- A fresh 640x480 window with `N` empty ring slots. -/
def fresh (N : Nat) : State :=
  { calls := [], w := 640, h := 480, surface_valid := false,
    drm_fbs := List.replicate N KMSDRM_DrmFB.zero, front_drm_fb := 0,
    crtc_ready := false, waiting_for_flip := false }

/-- A window with two populated slots, bound to the controller. -/
def bound2 : State := (KMSDRM_CreateWindowFramebuffer kernelOk vdata0 2 (fresh 2)).2

/-- A window whose slot 0 holds dumb buffer 7, registered as framebuffer 3. -/
def oneSlot : State :=
  { fresh 1 with
    drm_fbs := [{ handle := 7, id := 3, stride := 2560, size := 1228800, map := 65536 }] }

/-- As `kernelOk`, but the wait returns true whatever the flag and leaves it. -/
def kernelCareless : Kernel := { kernelOk with waitPageFlip := fun _ _ flag => (true, flag) }

/-! ## Properties of kernels and logs used in the statements -/

/-- Every request the ring build makes is answered with success. -/
def Kernel.buildSucceeds (k : Kernel) : Prop :=
  (∀ hist w h bpp, (k.createDumb hist w h bpp).isSome = true) ∧
  (∀ hist w h depth bpp pitch handle, (k.addFB hist w h depth bpp pitch handle).isSome = true) ∧
  (∀ hist handle, (k.mapDumb hist handle).isSome = true) ∧
  (∀ hist length offset, (k.mmap hist length offset).isSome = true)

/-- The log of `t` is the log of `s` followed by calls that all satisfy `p`. -/
def Extends (p : Call → Bool) (s t : State) : Prop :=
  ∃ new, t.calls = s.calls ++ new ∧ ∀ c ∈ new, p c = true

/-! ## Teardown -/

theorem destroyDrmFB_crtc_ready (s : State) (i : Nat) :
    (KMSDRM_DestroyDrmFB s i).crtc_ready = s.crtc_ready := by
  unfold KMSDRM_DestroyDrmFB
  simp only [State.setFb, State.log]
  split <;> split <;> rfl

theorem destroyDrmFB_drm_fbs (s : State) (i : Nat) :
    (KMSDRM_DestroyDrmFB s i).drm_fbs = s.drm_fbs.set i KMSDRM_DrmFB.zero := by
  unfold KMSDRM_DestroyDrmFB
  simp only [State.setFb, State.log]
  split <;> split <;> rfl

theorem destroyLoop_drm_fbs (n : Nat) : ∀ (i : Nat) (s : State) (j : Nat),
    (KMSDRM_DestroyDrmFBs.loop i n s).drm_fbs[j]? =
      if i ≤ j ∧ j < i + n then (s.drm_fbs[j]?).map (fun _ => KMSDRM_DrmFB.zero)
      else s.drm_fbs[j]? := by
  induction n with
  | zero =>
    intro i s j
    have h0 : ¬ (i ≤ j ∧ j < i + 0) := by omega
    rw [if_neg h0]
    rfl
  | succ n ih =>
    intro i s j
    rw [KMSDRM_DestroyDrmFBs.loop, ih, destroyDrmFB_drm_fbs]
    by_cases hij : i = j
    · subst hij
      have h1 : ¬ (i + 1 ≤ i ∧ i < i + 1 + n) := by omega
      have h2 : i ≤ i ∧ i < i + (n + 1) := by omega
      rw [if_neg h1, if_pos h2, List.getElem?_set]
      by_cases hl : i < s.drm_fbs.length
      · simp [hl]
      · have hnone : s.drm_fbs[i]? = none := List.getElem?_eq_none (by omega)
        simp [hl, hnone]
    · rw [List.getElem?_set_ne hij]
      by_cases hc : i + 1 ≤ j ∧ j < i + 1 + n
      · have h2 : i ≤ j ∧ j < i + (n + 1) := by omega
        rw [if_pos hc, if_pos h2]
      · have h2 : ¬ (i ≤ j ∧ j < i + (n + 1)) := by omega
        rw [if_neg hc, if_neg h2]

theorem destroyLoop_length (n : Nat) : ∀ (i : Nat) (s : State),
    (KMSDRM_DestroyDrmFBs.loop i n s).drm_fbs.length = s.drm_fbs.length := by
  induction n with
  | zero => intro i s; rfl
  | succ n ih =>
    intro i s
    rw [KMSDRM_DestroyDrmFBs.loop, ih, destroyDrmFB_drm_fbs, List.length_set]

theorem destroyLoop_crtc_ready (n : Nat) : ∀ (i : Nat) (s : State),
    (KMSDRM_DestroyDrmFBs.loop i n s).crtc_ready = s.crtc_ready := by
  induction n with
  | zero => intro i s; rfl
  | succ n ih =>
    intro i s
    rw [KMSDRM_DestroyDrmFBs.loop, ih, destroyDrmFB_crtc_ready]

/-- After `KMSDRM_DestroyWindowFramebuffer` every one of the `N` slots is zero. -/
theorem destroyWindowFramebuffer_drm_fbs (N : Nat) (s : State) (hN : s.drm_fbs.length = N) :
    (KMSDRM_DestroyWindowFramebuffer N s).drm_fbs = List.replicate N KMSDRM_DrmFB.zero := by
  apply List.ext_getElem?
  intro j
  show (KMSDRM_DestroyDrmFBs.loop 0 N s).drm_fbs[j]? = _
  rw [destroyLoop_drm_fbs]
  by_cases hj : j < N
  · have h1 : 0 ≤ j ∧ j < 0 + N := by omega
    have h2 : j < s.drm_fbs.length := by omega
    simp [h1, hj, List.getElem?_eq_getElem h2]
  · have h1 : ¬ (0 ≤ j ∧ j < 0 + N) := by omega
    have h2 : s.drm_fbs[j]? = none := List.getElem?_eq_none (by omega)
    have h3 : (List.replicate N KMSDRM_DrmFB.zero)[j]? = none :=
      List.getElem?_eq_none (by simp; omega)
    rw [if_neg h1, h2, h3]

/-- Function `KMSDRM_DestroyWindowFramebuffer` always leaves `crtc_ready` set. -/
theorem destroyWindowFramebuffer_crtc_ready (N : Nat) (s : State) :
    (KMSDRM_DestroyWindowFramebuffer N s).crtc_ready = true := rfl

/-- What `KMSDRM_DestroyDrmFB` adds to the log: the remove-framebuffer request for
a non-zero id, then, for a non-zero handle, a destroy-dumb request whose handle
field is 0. -/
theorem destroyDrmFB_calls (s : State) (i : Nat) :
    (KMSDRM_DestroyDrmFB s i).calls = s.calls ++
      (if (s.fb i).id ≠ 0 then [Call.rmFB (s.fb i).id] else []) ++
      (if (s.fb i).handle ≠ 0 then [Call.destroyDumb 0] else []) := by
  unfold KMSDRM_DestroyDrmFB
  simp only [State.setFb, State.log]
  split <;> split <;> simp_all [State.fb]

/-- C1 (the code departs from the claim): releasing the bound two-slot window, and
releasing the fresh one, zeroes every slot but leaves `crtc_ready` true, so the
window does not come out unbound. -/
theorem C1_release_leaves_crtc_ready :
    (KMSDRM_DestroyWindowFramebuffer 2 bound2).drm_fbs
        = [KMSDRM_DrmFB.zero, KMSDRM_DrmFB.zero] ∧
      (KMSDRM_DestroyWindowFramebuffer 2 bound2).crtc_ready = true ∧
      (fresh 2).crtc_ready = false ∧
      (KMSDRM_DestroyWindowFramebuffer 2 (fresh 2)).drm_fbs
        = [KMSDRM_DrmFB.zero, KMSDRM_DrmFB.zero] ∧
      (KMSDRM_DestroyWindowFramebuffer 2 (fresh 2)).crtc_ready = true := by
  decide

/-- C2 (the code departs from the claim): on the fresh two-slot window, with
dumb-buffer creation failing while slot 1 is built, `KMSDRM_InitCrtc` returns
false and every slot ends zero, but `crtc_ready` ends true. -/
theorem C2_failed_init_leaves_crtc_ready :
    (fresh 2).crtc_ready = false ∧
      (KMSDRM_InitCrtc kernelOneBuffer vdata0 2 (fresh 2)).1 = false ∧
      (KMSDRM_InitCrtc kernelOneBuffer vdata0 2 (fresh 2)).2.drm_fbs
        = [KMSDRM_DrmFB.zero, KMSDRM_DrmFB.zero] ∧
      (KMSDRM_InitCrtc kernelOneBuffer vdata0 2 (fresh 2)).2.crtc_ready = true := by
  decide

/-- C3 (the code departs from the claim): destroying a slot with handle 7 and
framebuffer id 3 issues the remove-framebuffer request for id 3 and then a
destroy-dumb request that carries handle 0, not 7. -/
theorem C3_destroy_dumb_carries_zero_handle :
    (oneSlot.fb 0).handle = 7 ∧ (oneSlot.fb 0).id = 3 ∧ oneSlot.calls = [] ∧
      (KMSDRM_DestroyDrmFB oneSlot 0).calls = [Call.rmFB 3, Call.destroyDumb 0] := by
  decide

/-! ## Presenting -/

/-- The three ways through `KMSDRM_UpdateWindowFramebuffer`: the wait gave up;
the wait returned and the kernel rejected the flip; the flip was queued. -/
theorem update_cases (k : Kernel) (vdata : SDL_VideoData) (N : Nat) (s : State) :
    (∃ f, k.waitPageFlip s.calls (-1) s.waiting_for_flip = (false, f) ∧
        KMSDRM_UpdateWindowFramebuffer k vdata N s =
          (0, { s with calls := s.calls ++
                         [Call.waitPageFlip (-1) s.waiting_for_flip false f],
                       waiting_for_flip := f })) ∨
    (∃ f, k.waitPageFlip s.calls (-1) s.waiting_for_flip = (true, f) ∧
        KMSDRM_UpdateWindowFramebuffer k vdata N s =
          (-1, { s with calls := s.calls ++
                          [Call.waitPageFlip (-1) s.waiting_for_flip true f,
                           Call.pageFlip vdata.crtc_id (s.fb s.front_drm_fb).id true false],
                        waiting_for_flip := false })) ∨
    (∃ f, k.waitPageFlip s.calls (-1) s.waiting_for_flip = (true, f) ∧
        KMSDRM_UpdateWindowFramebuffer k vdata N s =
          (0, { s with calls := s.calls ++
                         [Call.waitPageFlip (-1) s.waiting_for_flip true f,
                          Call.pageFlip vdata.crtc_id (s.fb s.front_drm_fb).id true true],
                       waiting_for_flip := true,
                       front_drm_fb := (s.front_drm_fb + 1) % N,
                       surface_valid := false })) := by
  rcases hw : k.waitPageFlip s.calls (-1) s.waiting_for_flip with ⟨r, f⟩
  cases r with
  | false =>
    left
    refine ⟨f, rfl, ?_⟩
    simp [KMSDRM_UpdateWindowFramebuffer, hw, State.log]
  | true =>
    right
    cases hp : k.pageFlip (s.calls ++ [Call.waitPageFlip (-1) s.waiting_for_flip true f])
        vdata.crtc_id (s.fb s.front_drm_fb).id true with
    | false =>
      left
      refine ⟨f, rfl, ?_⟩
      simp [KMSDRM_UpdateWindowFramebuffer, hw, State.log, hp]
    | true =>
      right
      refine ⟨f, rfl, ?_⟩
      simp [KMSDRM_UpdateWindowFramebuffer, hw, State.log, hp]

/-- C7: when the wait returns true and the log of the call ends with a page flip
the kernel rejected, `KMSDRM_UpdateWindowFramebuffer` returns -1 with
`waiting_for_flip` false, and the front index and the ring slots are those of
the state it was called on; the rejected request carried the id of the front
slot. -/
theorem C7_rejected_flip_keeps_front (k : Kernel) (vdata : SDL_VideoData) (N : Nat) (s : State)
    (crtc_id fb_id : Nat) (flag : Bool)
    (hwait : (k.waitPageFlip s.calls (-1) s.waiting_for_flip).1 = true)
    (hflip : (KMSDRM_UpdateWindowFramebuffer k vdata N s).2.calls.getLast?
      = some (Call.pageFlip crtc_id fb_id flag false)) :
    (KMSDRM_UpdateWindowFramebuffer k vdata N s).1 = -1 ∧
      (KMSDRM_UpdateWindowFramebuffer k vdata N s).2.waiting_for_flip = false ∧
      (KMSDRM_UpdateWindowFramebuffer k vdata N s).2.front_drm_fb = s.front_drm_fb ∧
      (KMSDRM_UpdateWindowFramebuffer k vdata N s).2.drm_fbs = s.drm_fbs ∧
      fb_id = (s.fb s.front_drm_fb).id := by
  rcases update_cases k vdata N s with ⟨f, hw, hu⟩ | ⟨f, hw, hu⟩ | ⟨f, hw, hu⟩
  · rw [hw] at hwait
    cases hwait
  · rw [hu] at hflip ⊢
    simp at hflip
    simp [hflip.2]
  · rw [hu] at hflip
    simp at hflip

/-- The hypotheses of the C7 theorem hold on the bound two-slot
window when the kernel rejects page flips. -/
theorem C7_rejected_flip_keeps_front_witness :
    (KMSDRM_UpdateWindowFramebuffer kernelNoFlip vdata0 2 bound2).1 = -1 ∧
      (KMSDRM_UpdateWindowFramebuffer kernelNoFlip vdata0 2 bound2).2.waiting_for_flip = false ∧
      (KMSDRM_UpdateWindowFramebuffer kernelNoFlip vdata0 2 bound2).2.front_drm_fb
        = bound2.front_drm_fb ∧
      (KMSDRM_UpdateWindowFramebuffer kernelNoFlip vdata0 2 bound2).2.drm_fbs = bound2.drm_fbs ∧
      106 = (bound2.fb bound2.front_drm_fb).id :=
  C7_rejected_flip_keeps_front kernelNoFlip vdata0 2 bound2 40 106 true (by decide) (by decide)

/-- C8: when the wait returns false, `KMSDRM_UpdateWindowFramebuffer` returns 0,
adds nothing to the log but the wait itself (so no page flip is requested),
keeps the front index, the ring slots and `surface_valid`, and leaves
`waiting_for_flip` as the wait left it. -/
theorem C8_timed_out_wait_skips_frame (k : Kernel) (vdata : SDL_VideoData) (N : Nat) (s : State)
    (hwait : (k.waitPageFlip s.calls (-1) s.waiting_for_flip).1 = false) :
    (KMSDRM_UpdateWindowFramebuffer k vdata N s).1 = 0 ∧
      (KMSDRM_UpdateWindowFramebuffer k vdata N s).2.calls = s.calls ++
        [Call.waitPageFlip (-1) s.waiting_for_flip false
          (k.waitPageFlip s.calls (-1) s.waiting_for_flip).2] ∧
      (KMSDRM_UpdateWindowFramebuffer k vdata N s).2.front_drm_fb = s.front_drm_fb ∧
      (KMSDRM_UpdateWindowFramebuffer k vdata N s).2.drm_fbs = s.drm_fbs ∧
      (KMSDRM_UpdateWindowFramebuffer k vdata N s).2.surface_valid = s.surface_valid ∧
      (KMSDRM_UpdateWindowFramebuffer k vdata N s).2.waiting_for_flip
        = (k.waitPageFlip s.calls (-1) s.waiting_for_flip).2 := by
  rcases update_cases k vdata N s with ⟨f, hw, hu⟩ | ⟨f, hw, hu⟩ | ⟨f, hw, hu⟩
  · rw [hu, hw]
    simp
  · rw [hw] at hwait
    cases hwait
  · rw [hw] at hwait
    cases hwait

/-- The hypothesis of the C8 theorem holds on the bound two-slot
window with a flip outstanding and a wait that gives up. -/
theorem C8_timed_out_wait_skips_frame_witness :
    (KMSDRM_UpdateWindowFramebuffer kernelTimeout vdata0 2
        { bound2 with waiting_for_flip := true }).1 = 0 ∧
      (KMSDRM_UpdateWindowFramebuffer kernelTimeout vdata0 2
        { bound2 with waiting_for_flip := true }).2.front_drm_fb = 1 ∧
      (KMSDRM_UpdateWindowFramebuffer kernelTimeout vdata0 2
        { bound2 with waiting_for_flip := true }).2.waiting_for_flip = true := by
  have h := C8_timed_out_wait_skips_frame kernelTimeout vdata0 2
    { bound2 with waiting_for_flip := true } (by decide)
  exact ⟨h.1, h.2.2.1, h.2.2.2.2.2⟩

/-! ## What each function adds to the log -/

theorem Extends.refl (p : Call → Bool) (s : State) : Extends p s s :=
  ⟨[], by simp, by simp⟩

theorem Extends.same (p : Call → Bool) (s t : State) (h : t.calls = s.calls) : Extends p s t :=
  ⟨[], by simp [h], by simp⟩

theorem Extends.trans {p : Call → Bool} {s t u : State} (h1 : Extends p s t)
    (h2 : Extends p t u) : Extends p s u := by
  obtain ⟨n1, e1, p1⟩ := h1
  obtain ⟨n2, e2, p2⟩ := h2
  refine ⟨n1 ++ n2, by rw [e2, e1, List.append_assoc], ?_⟩
  intro c hc
  rcases List.mem_append.mp hc with h | h
  · exact p1 c h
  · exact p2 c h

theorem Extends.log {p : Call → Bool} {s t : State} (c : Call) (h : Extends p s t)
    (hc : p c = true) : Extends p s (t.log c) := by
  obtain ⟨n1, e1, p1⟩ := h
  refine ⟨n1 ++ [c], by simp [State.log, e1], ?_⟩
  intro d hd
  rcases List.mem_append.mp hd with h | h
  · exact p1 d h
  · simp at h
    rw [h]
    exact hc

theorem Extends.setFb {p : Call → Bool} {s t : State} (i : Nat) (fb : KMSDRM_DrmFB)
    (h : Extends p s t) : Extends p s (t.setFb i fb) := h

theorem Extends.countP_eq {p : Call → Bool} {s t : State} (q : Call → Bool)
    (h : Extends p s t) (hpq : ∀ c, p c = true → q c = false) :
    t.calls.countP q = s.calls.countP q := by
  obtain ⟨new, e, hp⟩ := h
  rw [e, List.countP_append]
  have : new.countP q = 0 := by
    rw [List.countP_eq_zero]
    intro c hc
    simp [hpq c (hp c hc)]
  omega

theorem createDrmFB_extends (k : Kernel) (s : State) (i : Nat) :
    Extends Call.isRing s (KMSDRM_CreateDrmFB k s i).2 := by
  unfold KMSDRM_CreateDrmFB
  simp only
  split
  · exact (Extends.refl _ s).log _ rfl
  · split
    · exact ((((Extends.refl _ s).log _ rfl).setFb _ _).log _ rfl)
    · split
      · exact ((((((Extends.refl _ s).log _ rfl).setFb _ _).log _ rfl).setFb _ _).log _ rfl)
      · split
        · exact ((((((((Extends.refl _ s).log _ rfl).setFb _ _).log _ rfl).setFb _ _).log _
            rfl).log _ rfl).setFb _ _)
        · exact (((((((((Extends.refl _ s).log _ rfl).setFb _ _).log _ rfl).setFb _ _).log _
            rfl).log _ rfl).setFb _ _).log _ rfl)

theorem createLoop_extends (k : Kernel) (n : Nat) : ∀ (i : Nat) (s : State),
    Extends Call.isRing s (KMSDRM_CreateDrmFBs.loop k i n s).2 := by
  induction n with
  | zero => intro i s; exact Extends.refl _ s
  | succ n ih =>
    intro i s
    rw [KMSDRM_CreateDrmFBs.loop]
    have h := createDrmFB_extends k s i
    rcases hc : KMSDRM_CreateDrmFB k s i with ⟨r, t⟩
    rw [hc] at h
    cases r with
    | false => exact h
    | true => exact h.trans (ih (i + 1) t)

theorem destroyDrmFB_extends (s : State) (i : Nat) :
    Extends Call.isRing s (KMSDRM_DestroyDrmFB s i) := by
  unfold KMSDRM_DestroyDrmFB
  simp only
  split <;> split
  · exact ((((Extends.refl _ s).log _ rfl).log _ rfl).setFb _ _)
  · exact (((Extends.refl _ s).log _ rfl).setFb _ _)
  · exact (((Extends.refl _ s).log _ rfl).setFb _ _)
  · exact ((Extends.refl _ s).setFb _ _)

theorem destroyLoop_extends (n : Nat) : ∀ (i : Nat) (s : State),
    Extends Call.isRing s (KMSDRM_DestroyDrmFBs.loop i n s) := by
  induction n with
  | zero => intro i s; exact Extends.refl _ s
  | succ n ih =>
    intro i s
    rw [KMSDRM_DestroyDrmFBs.loop]
    exact (destroyDrmFB_extends s i).trans (ih (i + 1) _)

theorem destroyWindowFramebuffer_extends (N : Nat) (s : State) :
    Extends Call.isRing s (KMSDRM_DestroyWindowFramebuffer N s) :=
  destroyLoop_extends N 0 s

/-! ## Building the ring -/

theorem createDrmFB_fields (k : Kernel) (s : State) (i : Nat) :
    (KMSDRM_CreateDrmFB k s i).2.crtc_ready = s.crtc_ready ∧
      (KMSDRM_CreateDrmFB k s i).2.waiting_for_flip = s.waiting_for_flip ∧
      (KMSDRM_CreateDrmFB k s i).2.drm_fbs.length = s.drm_fbs.length ∧
      (KMSDRM_CreateDrmFB k s i).2.calls.countP Call.isCreateDumb
        = s.calls.countP Call.isCreateDumb + 1 := by
  unfold KMSDRM_CreateDrmFB
  simp only
  split
  · simp [State.log, Call.isCreateDumb]
  · split
    · simp [State.log, State.setFb, Call.isCreateDumb]
    · split
      · simp [State.log, State.setFb, Call.isCreateDumb]
      · split
        · simp [State.log, State.setFb, Call.isCreateDumb]
        · simp [State.log, State.setFb, Call.isCreateDumb]

theorem createLoop_fields (k : Kernel) (n : Nat) : ∀ (i : Nat) (s : State),
    (KMSDRM_CreateDrmFBs.loop k i n s).2.crtc_ready = s.crtc_ready ∧
      (KMSDRM_CreateDrmFBs.loop k i n s).2.waiting_for_flip = s.waiting_for_flip ∧
      (KMSDRM_CreateDrmFBs.loop k i n s).2.drm_fbs.length = s.drm_fbs.length ∧
      (KMSDRM_CreateDrmFBs.loop k i n s).2.calls.countP Call.isCreateDumb
        ≤ s.calls.countP Call.isCreateDumb + n := by
  induction n with
  | zero => intro i s; simp [KMSDRM_CreateDrmFBs.loop]
  | succ n ih =>
    intro i s
    rw [KMSDRM_CreateDrmFBs.loop]
    have h := createDrmFB_fields k s i
    rcases hc : KMSDRM_CreateDrmFB k s i with ⟨r, t⟩
    rw [hc] at h
    simp only at h
    cases r with
    | false =>
      simp only
      refine ⟨h.1, h.2.1, h.2.2.1, ?_⟩
      omega
    | true =>
      simp only
      have h2 := ih (i + 1) t
      refine ⟨h2.1.trans h.1, h2.2.1.trans h.2.1, h2.2.2.1.trans h.2.2.1, ?_⟩
      omega

theorem createDrmFB_succeeds (k : Kernel) (hk : k.buildSucceeds) (s : State) (i : Nat) :
    (KMSDRM_CreateDrmFB k s i).1 = true := by
  obtain ⟨h1, h2, h3, h4⟩ := hk
  unfold KMSDRM_CreateDrmFB
  simp only
  split
  · rename_i heq
    exact absurd heq (Option.ne_none_iff_isSome.mpr (h1 _ _ _ _))
  · split
    · rename_i heq
      exact absurd heq (Option.ne_none_iff_isSome.mpr (h2 _ _ _ _ _ _ _))
    · split
      · rename_i heq
        exact absurd heq (Option.ne_none_iff_isSome.mpr (h3 _ _))
      · split
        · rename_i heq
          exact absurd heq (Option.ne_none_iff_isSome.mpr (h4 _ _ _))
        · rfl

theorem createLoop_succeeds (k : Kernel) (hk : k.buildSucceeds) (n : Nat) :
    ∀ (i : Nat) (s : State), (KMSDRM_CreateDrmFBs.loop k i n s).1 = true := by
  induction n with
  | zero => intro i s; rfl
  | succ n ih =>
    intro i s
    rw [KMSDRM_CreateDrmFBs.loop]
    have h := createDrmFB_succeeds k hk s i
    rcases hc : KMSDRM_CreateDrmFB k s i with ⟨r, t⟩
    rw [hc] at h
    simp only at h
    subst h
    exact ih (i + 1) t

/-! ## Binding the controller -/

theorem initCrtc_bound (k : Kernel) (vdata : SDL_VideoData) (N : Nat) (s : State)
    (h : s.crtc_ready = true) : KMSDRM_InitCrtc k vdata N s = (true, s) := by
  simp [KMSDRM_InitCrtc, h]

/-- The ways through `KMSDRM_InitCrtc` on a window that is not bound: the ring
build fails; the build succeeds and the controller refuses; the controller
accepts slot 0. -/
theorem initCrtc_cases (k : Kernel) (vdata : SDL_VideoData) (N : Nat) (s : State)
    (h : s.crtc_ready = false) :
    (∃ t, KMSDRM_CreateDrmFBs k N s = (false, t) ∧
        KMSDRM_InitCrtc k vdata N s = (false, KMSDRM_DestroyWindowFramebuffer N t)) ∨
    (∃ t, KMSDRM_CreateDrmFBs k N s = (true, t) ∧
        k.setCrtc t.calls vdata.crtc_id (t.fb 0).id = false ∧
        KMSDRM_InitCrtc k vdata N s = (false, KMSDRM_DestroyWindowFramebuffer N
          { t with front_drm_fb := 0,
                   calls := t.calls ++ [Call.setCrtc vdata.crtc_id (t.fb 0).id 0 0
                     vdata.saved_conn_id 1 vdata.cur_mode false] })) ∨
    (∃ t, KMSDRM_CreateDrmFBs k N s = (true, t) ∧
        k.setCrtc t.calls vdata.crtc_id (t.fb 0).id = true ∧
        KMSDRM_InitCrtc k vdata N s = (true,
          { t with front_drm_fb := 1 % N, crtc_ready := true,
                   calls := t.calls ++ [Call.setCrtc vdata.crtc_id (t.fb 0).id 0 0
                     vdata.saved_conn_id 1 vdata.cur_mode true] })) := by
  rcases hc : KMSDRM_CreateDrmFBs k N s with ⟨r, t⟩
  cases r with
  | false =>
    left
    exact ⟨t, rfl, by simp [KMSDRM_InitCrtc, h, hc]⟩
  | true =>
    right
    cases he : k.setCrtc t.calls vdata.crtc_id (t.fb 0).id with
    | false =>
      left
      refine ⟨t, rfl, he, ?_⟩
      simp [State.fb] at he
      simp [KMSDRM_InitCrtc, h, hc, State.log, State.fb, he]
    | true =>
      right
      refine ⟨t, rfl, he, ?_⟩
      simp [State.fb] at he
      simp [KMSDRM_InitCrtc, h, hc, State.log, State.fb, he]

theorem initCrtc_crtc_ready (k : Kernel) (vdata : SDL_VideoData) (N : Nat) (s : State) :
    (KMSDRM_InitCrtc k vdata N s).2.crtc_ready = true := by
  cases h : s.crtc_ready with
  | true => rw [initCrtc_bound k vdata N s h]; exact h
  | false =>
    rcases initCrtc_cases k vdata N s h with ⟨t, _, hi⟩ | ⟨t, _, _, hi⟩ | ⟨t, _, _, hi⟩ <;>
      rw [hi] <;> rfl

theorem ring_not_setCrtc (c : Call) (h : Call.isRing c = true) : Call.isSetCrtc c = false := by
  cases c <;> simp [Call.isRing, Call.isSetCrtc] at h ⊢

theorem ring_not_pageFlip (c : Call) (h : Call.isRing c = true) : Call.isPageFlip c = false := by
  cases c <;> simp [Call.isRing, Call.isPageFlip] at h ⊢

theorem destroyLoop_createDumb (n : Nat) : ∀ (i : Nat) (s : State),
    (KMSDRM_DestroyDrmFBs.loop i n s).calls.countP Call.isCreateDumb
      = s.calls.countP Call.isCreateDumb := by
  induction n with
  | zero => intro i s; rfl
  | succ n ih =>
    intro i s
    rw [KMSDRM_DestroyDrmFBs.loop, ih]
    unfold KMSDRM_DestroyDrmFB
    simp only [State.setFb, State.log]
    split <;> split <;> simp [Call.isCreateDumb]

theorem initCrtc_counts (k : Kernel) (vdata : SDL_VideoData) (N : Nat) (s : State) :
    (KMSDRM_InitCrtc k vdata N s).2.calls.countP Call.isSetCrtc
        ≤ s.calls.countP Call.isSetCrtc + 1 ∧
      (KMSDRM_InitCrtc k vdata N s).2.calls.countP Call.isCreateDumb
        ≤ s.calls.countP Call.isCreateDumb + N := by
  cases h : s.crtc_ready with
  | true => rw [initCrtc_bound k vdata N s h]; simp
  | false =>
    have hb : ∀ r t, KMSDRM_CreateDrmFBs k N s = (r, t) →
        t.calls.countP Call.isSetCrtc = s.calls.countP Call.isSetCrtc ∧
        t.calls.countP Call.isCreateDumb ≤ s.calls.countP Call.isCreateDumb + N := by
      intro r t ht
      have e := createLoop_extends k N 0 s
      have f := (createLoop_fields k N 0 s).2.2.2
      have ht2 : (KMSDRM_CreateDrmFBs.loop k 0 N s).2 = t := by
        unfold KMSDRM_CreateDrmFBs at ht
        rw [ht]
      rw [ht2] at e f
      exact ⟨e.countP_eq _ ring_not_setCrtc, f⟩
    have hd : ∀ t, (KMSDRM_DestroyWindowFramebuffer N t).calls.countP Call.isSetCrtc
          = t.calls.countP Call.isSetCrtc ∧
        (KMSDRM_DestroyWindowFramebuffer N t).calls.countP Call.isCreateDumb
          = t.calls.countP Call.isCreateDumb := by
      intro t
      exact ⟨(destroyWindowFramebuffer_extends N t).countP_eq _ ring_not_setCrtc,
        destroyLoop_createDumb N 0 t⟩
    rcases initCrtc_cases k vdata N s h with ⟨t, hc, hi⟩ | ⟨t, hc, _, hi⟩ | ⟨t, hc, _, hi⟩
    · rw [hi]
      have h1 := hb _ _ hc
      have h2 := hd t
      simp only
      omega
    · rw [hi]
      have h1 := hb _ _ hc
      simp only
      rw [(hd _).1, (hd _).2]
      simp [List.countP_append, Call.isSetCrtc, Call.isCreateDumb]
      omega
    · rw [hi]
      have h1 := hb _ _ hc
      simp only [List.countP_append]
      simp [Call.isSetCrtc, Call.isCreateDumb]
      omega

/-- Whenever `KMSDRM_InitCrtc` fails on an unbound window with `N` slots, every
slot ends zero and `crtc_ready` ends true. -/
theorem initCrtc_failure (k : Kernel) (vdata : SDL_VideoData) (N : Nat) (s : State)
    (h : s.crtc_ready = false) (hlen : s.drm_fbs.length = N)
    (hr : (KMSDRM_InitCrtc k vdata N s).1 = false) :
    (KMSDRM_InitCrtc k vdata N s).2.drm_fbs = List.replicate N KMSDRM_DrmFB.zero ∧
      (KMSDRM_InitCrtc k vdata N s).2.crtc_ready = true := by
  have hb : ∀ r t, KMSDRM_CreateDrmFBs k N s = (r, t) → t.drm_fbs.length = N := by
    intro r t ht
    have f := (createLoop_fields k N 0 s).2.2.1
    have ht2 : (KMSDRM_CreateDrmFBs.loop k 0 N s).2 = t := by
      unfold KMSDRM_CreateDrmFBs at ht
      rw [ht]
    rw [ht2] at f
    exact f.trans hlen
  rcases initCrtc_cases k vdata N s h with ⟨t, hc, hi⟩ | ⟨t, hc, _, hi⟩ | ⟨t, hc, _, hi⟩
  · rw [hi]
    exact ⟨destroyWindowFramebuffer_drm_fbs N t (hb _ _ hc), rfl⟩
  · rw [hi]
    have ht : t.drm_fbs.length = N := hb _ _ hc
    exact ⟨destroyWindowFramebuffer_drm_fbs N _ ht, rfl⟩
  · rw [hi] at hr
    cases hr

/-- C5: `KMSDRM_InitCrtc` on a window whose `crtc_ready` is set returns true,
issues no request and changes no field; after any call of `KMSDRM_InitCrtc`
a second call is of that kind, so two calls in a row issue at most one
`drmModeSetCrtc` and at most `N` create-dumb requests (one ring build). -/
theorem C5_initCrtc_idempotent (k : Kernel) (vdata : SDL_VideoData) (N : Nat) (s : State) :
    (s.crtc_ready = true → KMSDRM_InitCrtc k vdata N s = (true, s)) ∧
      KMSDRM_InitCrtc k vdata N (KMSDRM_InitCrtc k vdata N s).2
        = (true, (KMSDRM_InitCrtc k vdata N s).2) ∧
      (KMSDRM_InitCrtc k vdata N (KMSDRM_InitCrtc k vdata N s).2).2.calls.countP Call.isSetCrtc
        ≤ s.calls.countP Call.isSetCrtc + 1 ∧
      (KMSDRM_InitCrtc k vdata N (KMSDRM_InitCrtc k vdata N s).2).2.calls.countP
        Call.isCreateDumb ≤ s.calls.countP Call.isCreateDumb + N := by
  have h2 := initCrtc_bound k vdata N _ (initCrtc_crtc_ready k vdata N s)
  refine ⟨initCrtc_bound k vdata N s, h2, ?_, ?_⟩
  · rw [h2]
    exact (initCrtc_counts k vdata N s).1
  · rw [h2]
    exact (initCrtc_counts k vdata N s).2

/-- The premise of the first part of the C5 theorem holds on the bound
two-slot window, and the build on the fresh window is followed by a call that
does nothing. -/
theorem C5_initCrtc_idempotent_witness :
    bound2.crtc_ready = true ∧
      KMSDRM_InitCrtc kernelOk vdata0 2 bound2 = (true, bound2) ∧
      KMSDRM_InitCrtc kernelOk vdata0 2 (KMSDRM_InitCrtc kernelOk vdata0 2 (fresh 2)).2
        = (true, (KMSDRM_InitCrtc kernelOk vdata0 2 (fresh 2)).2) :=
  ⟨by decide, (C5_initCrtc_idempotent kernelOk vdata0 2 bound2).1 (by decide),
    (C5_initCrtc_idempotent kernelOk vdata0 2 (fresh 2)).2.1⟩

/-! ## The first acquisition -/

theorem toInt_of_lt (x : Nat) (h : x < 2147483648) : toInt x = (x : Int) := by
  have h1 : x % 4294967296 = x := Nat.mod_eq_of_lt (by omega)
  simp [toInt, h1, h]

theorem createWindowFramebuffer_bound (k : Kernel) (vdata : SDL_VideoData) (N : Nat) (s : State)
    (h : s.crtc_ready = true) :
    KMSDRM_CreateWindowFramebuffer k vdata N s =
      ((0, some { format := SDL_PixelFormatEnum.SDL_PIXELFORMAT_RGB888,
                  pixels := (s.fb s.front_drm_fb).map,
                  pitch := toInt (s.fb s.front_drm_fb).stride }), s) := by
  simp [KMSDRM_CreateWindowFramebuffer, h]

theorem createWindowFramebuffer_unbound (k : Kernel) (vdata : SDL_VideoData) (N : Nat)
    (s : State) (h : s.crtc_ready = false) :
    KMSDRM_CreateWindowFramebuffer k vdata N s =
      (match KMSDRM_InitCrtc k vdata N s with
        | (false, t) => ((-1, none), t)
        | (true, t) =>
          ((0, some { format := SDL_PixelFormatEnum.SDL_PIXELFORMAT_RGB888,
                      pixels := (t.fb t.front_drm_fb).map,
                      pitch := toInt (t.fb t.front_drm_fb).stride }), t)) := by
  simp [KMSDRM_CreateWindowFramebuffer, h]

/-- What a successful `KMSDRM_InitCrtc` on an unbound window leaves behind. -/
theorem initCrtc_success (k : Kernel) (vdata : SDL_VideoData) (N : Nat) (s : State)
    (h : s.crtc_ready = false) (hr : (KMSDRM_InitCrtc k vdata N s).1 = true) :
    (KMSDRM_InitCrtc k vdata N s).2.calls.getLast? =
        some (Call.setCrtc vdata.crtc_id ((KMSDRM_InitCrtc k vdata N s).2.fb 0).id 0 0
          vdata.saved_conn_id 1 vdata.cur_mode true) ∧
      (KMSDRM_InitCrtc k vdata N s).2.calls.countP Call.isSetCrtc
        = s.calls.countP Call.isSetCrtc + 1 ∧
      (KMSDRM_InitCrtc k vdata N s).2.front_drm_fb = 1 % N ∧
      (KMSDRM_InitCrtc k vdata N s).2.crtc_ready = true ∧
      (KMSDRM_InitCrtc k vdata N s).2.drm_fbs.length = s.drm_fbs.length := by
  rcases initCrtc_cases k vdata N s h with ⟨t, hc, hi⟩ | ⟨t, hc, _, hi⟩ | ⟨t, hc, _, hi⟩
  · rw [hi] at hr
    cases hr
  · rw [hi] at hr
    cases hr
  · rw [hi]
    have e := createLoop_extends k N 0 s
    have f := (createLoop_fields k N 0 s).2.2.1
    have ht : (KMSDRM_CreateDrmFBs.loop k 0 N s).2 = t := by
      unfold KMSDRM_CreateDrmFBs at hc
      rw [hc]
    rw [ht] at e f
    have hcount := e.countP_eq _ ring_not_setCrtc
    refine ⟨by simp [State.fb], ?_, rfl, rfl, f⟩
    simp [List.countP_append, Call.isSetCrtc, hcount]

/-- C4: on a window that is not bound and has `N >= 2` ring slots (the fresh
window among them), with every build request and `drmModeSetCrtc` succeeding,
`KMSDRM_CreateWindowFramebuffer` returns 0; the one `drmModeSetCrtc` it issues
is its last call and carries the id of slot 0; `crtc_ready` is set, the front
index is 1, and the outputs are RGB888, the `map` of slot 1 and the `stride` of
slot 1 converted to `int`. -/
theorem C4_first_acquire_returns_slot_one (k : Kernel) (vdata : SDL_VideoData) (N : Nat)
    (s : State) (hN : 2 ≤ N) (hlen : s.drm_fbs.length = N) (hunbound : s.crtc_ready = false)
    (hbuild : k.buildSucceeds) (hset : ∀ hist crtc_id fb_id, k.setCrtc hist crtc_id fb_id = true) :
    (KMSDRM_CreateWindowFramebuffer k vdata N s).1.1 = 0 ∧
      (KMSDRM_CreateWindowFramebuffer k vdata N s).2.calls.getLast? =
        some (Call.setCrtc vdata.crtc_id
          ((KMSDRM_CreateWindowFramebuffer k vdata N s).2.fb 0).id 0 0
          vdata.saved_conn_id 1 vdata.cur_mode true) ∧
      (KMSDRM_CreateWindowFramebuffer k vdata N s).2.calls.countP Call.isSetCrtc
        = s.calls.countP Call.isSetCrtc + 1 ∧
      (KMSDRM_CreateWindowFramebuffer k vdata N s).2.crtc_ready = true ∧
      (KMSDRM_CreateWindowFramebuffer k vdata N s).2.front_drm_fb = 1 ∧
      (KMSDRM_CreateWindowFramebuffer k vdata N s).2.drm_fbs.length = N ∧
      (KMSDRM_CreateWindowFramebuffer k vdata N s).1.2 =
        some { format := SDL_PixelFormatEnum.SDL_PIXELFORMAT_RGB888,
               pixels := ((KMSDRM_CreateWindowFramebuffer k vdata N s).2.fb 1).map,
               pitch := toInt ((KMSDRM_CreateWindowFramebuffer k vdata N s).2.fb 1).stride } := by
  have hr : (KMSDRM_InitCrtc k vdata N s).1 = true := by
    rcases initCrtc_cases k vdata N s hunbound with ⟨t, hc, _⟩ | ⟨t, _, he, _⟩ | ⟨t, _, _, hi⟩
    · have := createLoop_succeeds k hbuild N 0 s
      unfold KMSDRM_CreateDrmFBs at hc
      rw [hc] at this
      cases this
    · rw [hset] at he
      cases he
    · rw [hi]
  have h := initCrtc_success k vdata N s hunbound hr
  have h1 : 1 % N = 1 := Nat.mod_eq_of_lt (by omega)
  rw [createWindowFramebuffer_unbound k vdata N s hunbound]
  rcases hi : KMSDRM_InitCrtc k vdata N s with ⟨r, t⟩
  rw [hi] at hr h
  simp only at hr h
  subst hr
  simp only
  rw [h1] at h
  refine ⟨trivial, h.1, h.2.1, h.2.2.2.1, h.2.2.1, h.2.2.2.2.trans hlen, ?_⟩
  rw [h.2.2.1]

/-- The hypotheses of the C4 theorem hold for the fresh
two-slot window and the kernel in which everything succeeds; slot 1 is the
buffer mapped at 90112 with stride 2560. -/
theorem C4_first_acquire_returns_slot_one_witness :
    (fresh 2).drm_fbs = [KMSDRM_DrmFB.zero, KMSDRM_DrmFB.zero] ∧
      (KMSDRM_CreateWindowFramebuffer kernelOk vdata0 2 (fresh 2)).1.1 = 0 ∧
      (KMSDRM_CreateWindowFramebuffer kernelOk vdata0 2 (fresh 2)).2.front_drm_fb = 1 ∧
      (KMSDRM_CreateWindowFramebuffer kernelOk vdata0 2 (fresh 2)).1.2 =
        some { format := SDL_PixelFormatEnum.SDL_PIXELFORMAT_RGB888,
               pixels := 90112, pitch := 2560 } := by
  have h := C4_first_acquire_returns_slot_one kernelOk vdata0 2 (fresh 2) (by decide) (by decide)
    (by decide)
    ⟨fun _ _ _ _ => rfl, fun _ _ _ _ _ _ _ => rfl, fun _ _ => rfl, fun _ _ _ => rfl⟩
    (fun _ _ _ => rfl)
  exact ⟨by decide, h.1, h.2.2.2.2.1, h.2.2.2.2.2.2.trans (by decide)⟩

/-! ## Rotation of the front index -/

/-- When the log of `KMSDRM_UpdateWindowFramebuffer` ends with an accepted page
flip, the call went all the way through. -/
theorem update_queued (k : Kernel) (vdata : SDL_VideoData) (N : Nat) (s : State) (fb_id : Nat)
    (h : lastQueued (KMSDRM_UpdateWindowFramebuffer k vdata N s).2.calls = some fb_id) :
    fb_id = (s.fb s.front_drm_fb).id ∧
      ∃ f, KMSDRM_UpdateWindowFramebuffer k vdata N s =
        (0, { s with calls := s.calls ++
                       [Call.waitPageFlip (-1) s.waiting_for_flip true f,
                        Call.pageFlip vdata.crtc_id (s.fb s.front_drm_fb).id true true],
                     waiting_for_flip := true,
                     front_drm_fb := (s.front_drm_fb + 1) % N,
                     surface_valid := false }) := by
  rcases update_cases k vdata N s with ⟨f, _, hu⟩ | ⟨f, _, hu⟩ | ⟨f, _, hu⟩
  · rw [hu] at h
    simp [lastQueued, Call.queuedFlip] at h
  · rw [hu] at h
    simp [lastQueued, Call.queuedFlip] at h
  · rw [hu] at h
    simp [lastQueued, Call.queuedFlip] at h
    exact ⟨h.symm, f, hu⟩

theorem succ_mod_ne (N f : Nat) (hN : 2 ≤ N) : (f + 1) % N ≠ f := by
  intro h
  have hlt : (f + 1) % N < N := Nat.mod_lt _ (by omega)
  have hf : f < N := by omega
  by_cases hlast : f + 1 < N
  · rw [Nat.mod_eq_of_lt hlast] at h
    omega
  · have hfe : f + 1 = N := by omega
    rw [hfe, Nat.mod_self] at h
    omega

/-- C10: with `N >= 2` slots, a `KMSDRM_InitCrtc` that binds an unbound window
submits the id of slot 0 and leaves the front index at 1, and a
`KMSDRM_UpdateWindowFramebuffer` whose flip is accepted submits the id of the
front slot `f` and leaves the front index at `(f + 1) % N`, which is not `f`;
the next `KMSDRM_CreateWindowFramebuffer` on the bound window hands out the
`map` and `stride` of the slot at the new front index, not of the slot just
submitted. -/
theorem C10_submitted_slot_not_handed_out (k : Kernel) (vdata : SDL_VideoData) (N : Nat)
    (hN : 2 ≤ N) :
    (∀ s : State, s.crtc_ready = false → (KMSDRM_InitCrtc k vdata N s).1 = true →
      (KMSDRM_InitCrtc k vdata N s).2.calls.getLast? =
          some (Call.setCrtc vdata.crtc_id ((KMSDRM_InitCrtc k vdata N s).2.fb 0).id 0 0
            vdata.saved_conn_id 1 vdata.cur_mode true) ∧
        (KMSDRM_InitCrtc k vdata N s).2.front_drm_fb = 1 ∧
        (KMSDRM_InitCrtc k vdata N s).2.front_drm_fb ≠ 0 ∧
        KMSDRM_CreateWindowFramebuffer k vdata N (KMSDRM_InitCrtc k vdata N s).2 =
          ((0, some { format := SDL_PixelFormatEnum.SDL_PIXELFORMAT_RGB888,
                      pixels := ((KMSDRM_InitCrtc k vdata N s).2.fb 1).map,
                      pitch := toInt ((KMSDRM_InitCrtc k vdata N s).2.fb 1).stride }),
            (KMSDRM_InitCrtc k vdata N s).2)) ∧
    (∀ (s : State) (fb_id : Nat),
      lastQueued (KMSDRM_UpdateWindowFramebuffer k vdata N s).2.calls = some fb_id →
      fb_id = (s.fb s.front_drm_fb).id ∧
        (KMSDRM_UpdateWindowFramebuffer k vdata N s).2.front_drm_fb
          = (s.front_drm_fb + 1) % N ∧
        (KMSDRM_UpdateWindowFramebuffer k vdata N s).2.front_drm_fb ≠ s.front_drm_fb ∧
        (KMSDRM_UpdateWindowFramebuffer k vdata N s).2.drm_fbs = s.drm_fbs ∧
        (s.crtc_ready = true →
          KMSDRM_CreateWindowFramebuffer k vdata N (KMSDRM_UpdateWindowFramebuffer k vdata N s).2 =
            ((0, some { format := SDL_PixelFormatEnum.SDL_PIXELFORMAT_RGB888,
                        pixels := (s.fb ((s.front_drm_fb + 1) % N)).map,
                        pitch := toInt (s.fb ((s.front_drm_fb + 1) % N)).stride }),
              (KMSDRM_UpdateWindowFramebuffer k vdata N s).2))) := by
  have h1 : 1 % N = 1 := Nat.mod_eq_of_lt (by omega)
  constructor
  · intro s hu hr
    have h := initCrtc_success k vdata N s hu hr
    rw [h1] at h
    refine ⟨h.1, h.2.2.1, ?_, ?_⟩
    · rw [h.2.2.1]
      omega
    · rw [createWindowFramebuffer_bound k vdata N _ h.2.2.2.1, h.2.2.1]
  · intro s fb_id hq
    obtain ⟨hid, f, hu⟩ := update_queued k vdata N s fb_id hq
    have hcr : (KMSDRM_UpdateWindowFramebuffer k vdata N s).2.crtc_ready = s.crtc_ready := by
      rw [hu]
    have hfb : ∀ i, (KMSDRM_UpdateWindowFramebuffer k vdata N s).2.fb i = s.fb i := by
      rw [hu]
      intro i
      rfl
    have hfront : (KMSDRM_UpdateWindowFramebuffer k vdata N s).2.front_drm_fb
        = (s.front_drm_fb + 1) % N := by
      rw [hu]
    refine ⟨hid, hfront, ?_, by rw [hu], ?_⟩
    · rw [hfront]
      exact succ_mod_ne N _ hN
    · intro hb
      rw [createWindowFramebuffer_bound k vdata N _ (hcr.trans hb), hfb, hfront]

/-- The hypotheses of the C10 theorem hold for two slots: the
fresh window binds with slot 0 submitted, and on the bound window (front index 1)
the accepted flip carries framebuffer 106 of slot 1 and the next acquisition
hands out slot 0, mapped at 69632. -/
theorem C10_submitted_slot_not_handed_out_witness :
    (KMSDRM_InitCrtc kernelOk vdata0 2 (fresh 2)).2.front_drm_fb = 1 ∧
      106 = (bound2.fb bound2.front_drm_fb).id ∧
      bound2.front_drm_fb = 1 ∧
      KMSDRM_CreateWindowFramebuffer kernelOk vdata0 2
          (KMSDRM_UpdateWindowFramebuffer kernelOk vdata0 2 bound2).2 =
        ((0, some { format := SDL_PixelFormatEnum.SDL_PIXELFORMAT_RGB888,
                    pixels := 69632, pitch := 2560 }),
          (KMSDRM_UpdateWindowFramebuffer kernelOk vdata0 2 bound2).2) := by
  have h := C10_submitted_slot_not_handed_out kernelOk vdata0 2 (by decide)
  have ha := h.1 (fresh 2) (by decide) (by decide)
  have hb := h.2 bound2 106 (by decide)
  exact ⟨ha.2.1, hb.1, by decide, (hb.2.2.2.2 (by decide)).trans (by decide)⟩

/-- One `KMSDRM_UpdateWindowFramebuffer` either queues nothing and keeps the front
index, or queues the id of the front slot and advances the index by one. -/
theorem update_rotation (k : Kernel) (vdata : SDL_VideoData) (N : Nat) (s : State) :
    (KMSDRM_UpdateWindowFramebuffer k vdata N s).2.drm_fbs = s.drm_fbs ∧
      ((queuedIds (KMSDRM_UpdateWindowFramebuffer k vdata N s).2.calls = queuedIds s.calls ∧
          (KMSDRM_UpdateWindowFramebuffer k vdata N s).2.front_drm_fb = s.front_drm_fb) ∨
        (queuedIds (KMSDRM_UpdateWindowFramebuffer k vdata N s).2.calls
            = queuedIds s.calls ++ [(s.fb s.front_drm_fb).id] ∧
          (KMSDRM_UpdateWindowFramebuffer k vdata N s).2.front_drm_fb
            = (s.front_drm_fb + 1) % N)) := by
  rcases update_cases k vdata N s with ⟨f, _, hu⟩ | ⟨f, _, hu⟩ | ⟨f, _, hu⟩
  · rw [hu]
    exact ⟨rfl, Or.inl ⟨by simp [queuedIds, Call.queuedFlip], rfl⟩⟩
  · rw [hu]
    exact ⟨rfl, Or.inl ⟨by simp [queuedIds, Call.queuedFlip], rfl⟩⟩
  · rw [hu]
    exact ⟨rfl, Or.inr ⟨by simp [queuedIds, Call.queuedFlip], rfl⟩⟩

/-- After any number of presents, the accepted flips carried the ids of the slots
`f, f+1, ...` taken modulo `N`, and the front index moved by their number. -/
theorem presents_rotation (k : Kernel) (vdata : SDL_VideoData) (N : Nat) (n : Nat) :
    ∀ s : State, s.front_drm_fb < N →
      ∃ c, c ≤ n ∧
        queuedIds (presents k vdata N n s).calls = queuedIds s.calls ++
          (List.range c).map (fun j => (s.fb ((s.front_drm_fb + j) % N)).id) ∧
        (presents k vdata N n s).front_drm_fb = (s.front_drm_fb + c) % N ∧
        (presents k vdata N n s).drm_fbs = s.drm_fbs := by
  induction n with
  | zero =>
    intro s hf
    exact ⟨0, Nat.le_refl 0, by simp [presents], by simp [presents, Nat.mod_eq_of_lt hf], rfl⟩
  | succ n ih =>
    intro s hf
    have hN : 0 < N := by omega
    obtain ⟨hfbs, hstep⟩ := update_rotation k vdata N s
    have hfb : ∀ i, (KMSDRM_UpdateWindowFramebuffer k vdata N s).2.fb i = s.fb i := by
      intro i
      simp [State.fb, hfbs]
    rcases hstep with ⟨hids, hfront⟩ | ⟨hids, hfront⟩
    · obtain ⟨c, hc, h1, h2, h3⟩ := ih (KMSDRM_UpdateWindowFramebuffer k vdata N s).2
        (by rw [hfront]; exact hf)
      refine ⟨c, by omega, ?_, ?_, ?_⟩
      · rw [presents, h1, hids, hfront]
        simp only [hfb]
      · rw [presents, h2, hfront]
      · rw [presents, h3, hfbs]
    · obtain ⟨c, hc, h1, h2, h3⟩ := ih (KMSDRM_UpdateWindowFramebuffer k vdata N s).2
        (by rw [hfront]; exact Nat.mod_lt _ hN)
      refine ⟨c + 1, by omega, ?_, ?_, ?_⟩
      · rw [presents, h1, hids, hfront, List.range_succ_eq_map]
        simp only [hfb, List.map_cons, List.map_map, List.append_assoc, List.singleton_append,
          Nat.add_zero, Nat.mod_eq_of_lt hf]
        congr 2
        apply List.map_congr_left
        intro j _
        simp only [Function.comp, Nat.mod_add_mod]
        congr 3
        omega
      · rw [presents, h2, hfront, Nat.mod_add_mod]
        congr 1
        omega
      · rw [presents, h3, hfbs]

/-- C6: a `KMSDRM_UpdateWindowFramebuffer` whose flip is accepted returns 0,
submitted the id of the slot at the front index `f`, and leaves the front index
at `(f + 1) % N`, with one flip accepted.  Starting from front index 0, after any
number of presents of which `c` were accepted the front index is `c % N` and is
below `N`, the ids submitted are those of slots `0 % N, 1 % N, ..., (c-1) % N` in
this order, and the submission `N` places later is that of the same slot. -/
theorem C6_front_index_rotation (k : Kernel) (vdata : SDL_VideoData) (N : Nat) (s : State)
    (n : Nat) (hN : 0 < N) (h0 : s.front_drm_fb = 0) :
    (∀ (t : State) (fb_id : Nat),
        lastQueued (KMSDRM_UpdateWindowFramebuffer k vdata N t).2.calls = some fb_id →
        (KMSDRM_UpdateWindowFramebuffer k vdata N t).1 = 0 ∧
          fb_id = (t.fb t.front_drm_fb).id ∧
          (KMSDRM_UpdateWindowFramebuffer k vdata N t).2.front_drm_fb
            = (t.front_drm_fb + 1) % N ∧
          queuedSince t (KMSDRM_UpdateWindowFramebuffer k vdata N t).2 = 1) ∧
      (presents k vdata N n s).front_drm_fb = queuedSince s (presents k vdata N n s) % N ∧
      (presents k vdata N n s).front_drm_fb < N ∧
      queuedIds (presents k vdata N n s).calls = queuedIds s.calls ++
        (List.range (queuedSince s (presents k vdata N n s))).map
          (fun j => (s.fb (j % N)).id) ∧
      (∀ j, j + N < queuedSince s (presents k vdata N n s) →
        (queuedIds (presents k vdata N n s).calls)[(queuedIds s.calls).length + (j + N)]? =
          (queuedIds (presents k vdata N n s).calls)[(queuedIds s.calls).length + j]?) := by
  constructor
  · intro t fb_id hq
    obtain ⟨hid, f, hu⟩ := update_queued k vdata N t fb_id hq
    rw [hu]
    refine ⟨rfl, hid, rfl, ?_⟩
    simp [queuedSince, queuedIds, Call.queuedFlip]
  · obtain ⟨c, _, hids, hfront, _⟩ := presents_rotation k vdata N n s (by omega)
    have hc : queuedSince s (presents k vdata N n s) = c := by
      simp [queuedSince, hids]
    rw [hc]
    simp only [h0, Nat.zero_add] at hids hfront
    refine ⟨hfront, ?_, hids, ?_⟩
    · rw [hfront]
      exact Nat.mod_lt _ hN
    · intro j hj
      have hj2 : j < c := by omega
      rw [hids, List.getElem?_append_right (Nat.le_add_right _ _),
        List.getElem?_append_right (Nat.le_add_right _ _)]
      simp [List.getElem?_map, List.getElem?_range, hj, hj2]

/-- The hypotheses of the C6 theorem hold for two populated slots with
front index 0: four presents with a blocking wait are all accepted, submit the
ids 101, 106, 101, 106 and bring the front index back to `4 % 2`. -/
theorem C6_front_index_rotation_witness :
    ({ bound2 with front_drm_fb := 0 } : State).front_drm_fb = 0 ∧
      queuedSince { bound2 with front_drm_fb := 0 }
        (presents kernelBlocking vdata0 2 4 { bound2 with front_drm_fb := 0 }) = 4 ∧
      (presents kernelBlocking vdata0 2 4 { bound2 with front_drm_fb := 0 }).front_drm_fb
        = 4 % 2 ∧
      queuedIds (presents kernelBlocking vdata0 2 4 { bound2 with front_drm_fb := 0 }).calls
        = [101, 106, 101, 106] ∧
      (KMSDRM_UpdateWindowFramebuffer kernelBlocking vdata0 2 bound2).2.front_drm_fb
        = (1 + 1) % 2 := by
  have h := C6_front_index_rotation kernelBlocking vdata0 2 { bound2 with front_drm_fb := 0 } 4
    (by decide) rfl
  have hc : queuedSince { bound2 with front_drm_fb := 0 }
      (presents kernelBlocking vdata0 2 4 { bound2 with front_drm_fb := 0 }) = 4 := by decide
  refine ⟨rfl, hc, ?_, ?_, ?_⟩
  · exact h.2.1.trans (by rw [hc])
  · exact h.2.2.2.1.trans (by decide)
  · exact (h.1 bound2 106 (by decide)).2.2.1

/-! ## One flip at a time -/

theorem guardedFrom_of_false (l : List Call) (b : Bool) (h : guardedFrom false l = true) :
    guardedFrom b l = true := by
  cases l with
  | nil => rfl
  | cons c cs =>
    simp only [guardedFrom, Bool.and_eq_true, Bool.or_eq_true] at h ⊢
    exact ⟨Or.inl (by simpa using h.1), h.2⟩

theorem guardedFrom_append (l1 : List Call) : ∀ (b : Bool) (l2 : List Call),
    guardedFrom b l1 = true → guardedFrom false l2 = true → guardedFrom b (l1 ++ l2) = true := by
  induction l1 with
  | nil =>
    intro b l2 _ h2
    exact guardedFrom_of_false l2 b h2
  | cons c cs ih =>
    intro b l2 h1 h2
    simp only [List.cons_append, guardedFrom, Bool.and_eq_true] at h1 ⊢
    exact ⟨h1.1, ih _ l2 h1.2 h2⟩

theorem guardedFrom_of_no_flip (l : List Call) : ∀ b : Bool,
    (∀ c ∈ l, Call.isPageFlip c = false) → guardedFrom b l = true := by
  induction l with
  | nil => intro b _; rfl
  | cons c cs ih =>
    intro b h
    simp only [guardedFrom, Bool.and_eq_true, Bool.or_eq_true]
    refine ⟨Or.inl ?_, ih _ (fun d hd => h d (List.mem_cons_of_mem c hd))⟩
    simp [h c (List.mem_cons_self c cs)]

/-- Extending the log with calls that are no page flips keeps it guarded. -/
theorem Extends.guarded {p : Call → Bool} {s t : State} (h : Extends p s t)
    (hp : ∀ c, p c = true → Call.isPageFlip c = false) (hs : flipsGuarded s.calls = true) :
    flipsGuarded t.calls = true := by
  obtain ⟨new, e, hnew⟩ := h
  unfold flipsGuarded at hs ⊢
  rw [e]
  exact guardedFrom_append _ _ _ hs
    (guardedFrom_of_no_flip new false (fun c hc => hp c (hnew c hc)))

theorem destroyLoop_flag (n : Nat) : ∀ (i : Nat) (s : State),
    (KMSDRM_DestroyDrmFBs.loop i n s).waiting_for_flip = s.waiting_for_flip := by
  induction n with
  | zero => intro i s; rfl
  | succ n ih =>
    intro i s
    rw [KMSDRM_DestroyDrmFBs.loop, ih]
    unfold KMSDRM_DestroyDrmFB
    simp only [State.setFb, State.log]
    split <;> split <;> rfl

theorem destroyWindowFramebuffer_flag (N : Nat) (s : State) :
    (KMSDRM_DestroyWindowFramebuffer N s).waiting_for_flip = s.waiting_for_flip :=
  destroyLoop_flag N 0 s

/-- Function `KMSDRM_InitCrtc` requests no page flip and leaves `waiting_for_flip` alone. -/
theorem initCrtc_flag (k : Kernel) (vdata : SDL_VideoData) (N : Nat) (s : State) :
    (KMSDRM_InitCrtc k vdata N s).2.waiting_for_flip = s.waiting_for_flip ∧
      (flipsGuarded s.calls = true →
        flipsGuarded (KMSDRM_InitCrtc k vdata N s).2.calls = true) := by
  cases h : s.crtc_ready with
  | true =>
    rw [initCrtc_bound k vdata N s h]
    exact ⟨rfl, id⟩
  | false =>
    have hb : ∀ r t, KMSDRM_CreateDrmFBs k N s = (r, t) →
        t.waiting_for_flip = s.waiting_for_flip ∧
        (flipsGuarded s.calls = true → flipsGuarded t.calls = true) := by
      intro r t ht
      have e := createLoop_extends k N 0 s
      have f := (createLoop_fields k N 0 s).2.1
      have ht2 : (KMSDRM_CreateDrmFBs.loop k 0 N s).2 = t := by
        unfold KMSDRM_CreateDrmFBs at ht
        rw [ht]
      rw [ht2] at e f
      exact ⟨f, e.guarded ring_not_pageFlip⟩
    have hd : ∀ t, flipsGuarded t.calls = true →
        flipsGuarded (KMSDRM_DestroyWindowFramebuffer N t).calls = true := fun t =>
      (destroyWindowFramebuffer_extends N t).guarded ring_not_pageFlip
    have hlog : ∀ (t : State) (ok : Bool), flipsGuarded t.calls = true →
        flipsGuarded (t.calls ++ [Call.setCrtc vdata.crtc_id (t.fb 0).id 0 0
          vdata.saved_conn_id 1 vdata.cur_mode ok]) = true := by
      intro t ok ht
      exact guardedFrom_append _ _ _ ht rfl
    rcases initCrtc_cases k vdata N s h with ⟨t, hc, hi⟩ | ⟨t, hc, _, hi⟩ | ⟨t, hc, _, hi⟩
    · rw [hi]
      obtain ⟨h1, h2⟩ := hb _ _ hc
      exact ⟨(destroyWindowFramebuffer_flag N t).trans h1, fun hs => hd t (h2 hs)⟩
    · rw [hi]
      obtain ⟨h1, h2⟩ := hb _ _ hc
      exact ⟨(destroyWindowFramebuffer_flag N _).trans h1, fun hs => hd _ (hlog t false (h2 hs))⟩
    · rw [hi]
      obtain ⟨h1, h2⟩ := hb _ _ hc
      exact ⟨h1, fun hs => hlog t true (h2 hs)⟩

theorem createWindowFramebuffer_flag (k : Kernel) (vdata : SDL_VideoData) (N : Nat) (s : State) :
    (KMSDRM_CreateWindowFramebuffer k vdata N s).2.waiting_for_flip = s.waiting_for_flip ∧
      (flipsGuarded s.calls = true →
        flipsGuarded (KMSDRM_CreateWindowFramebuffer k vdata N s).2.calls = true) := by
  cases h : s.crtc_ready with
  | true =>
    rw [createWindowFramebuffer_bound k vdata N s h]
    exact ⟨rfl, id⟩
  | false =>
    rw [createWindowFramebuffer_unbound k vdata N s h]
    have hi := initCrtc_flag k vdata N s
    rcases hc : KMSDRM_InitCrtc k vdata N s with ⟨r, t⟩
    rw [hc] at hi
    cases r <;> exact hi

/-- With a wait that returns true only with `waiting_for_flip` false, a present
keeps the log guarded. -/
theorem update_guarded (k : Kernel) (vdata : SDL_VideoData) (N : Nat)
    (hwait : ∀ hist timeout flag, (k.waitPageFlip hist timeout flag).1 = true →
      (k.waitPageFlip hist timeout flag).2 = false)
    (s : State) (hs : flipsGuarded s.calls = true) :
    flipsGuarded (KMSDRM_UpdateWindowFramebuffer k vdata N s).2.calls = true := by
  rcases update_cases k vdata N s with ⟨f, hw, hu⟩ | ⟨f, hw, hu⟩ | ⟨f, hw, hu⟩
  · rw [hu]
    exact guardedFrom_append _ _ _ hs rfl
  · have hf : f = false := by
      have := hwait s.calls (-1) s.waiting_for_flip
      rw [hw] at this
      exact this rfl
    subst hf
    rw [hu]
    exact guardedFrom_append _ _ _ hs rfl
  · have hf : f = false := by
      have := hwait s.calls (-1) s.waiting_for_flip
      rw [hw] at this
      exact this rfl
    subst hf
    rw [hu]
    exact guardedFrom_append _ _ _ hs rfl

theorem run_guarded (k : Kernel) (vdata : SDL_VideoData) (N : Nat)
    (hwait : ∀ hist timeout flag, (k.waitPageFlip hist timeout flag).1 = true →
      (k.waitPageFlip hist timeout flag).2 = false)
    (ops : List Op) : ∀ s : State, flipsGuarded s.calls = true →
      flipsGuarded (run k vdata N ops s).calls = true := by
  induction ops with
  | nil => intro s hs; exact hs
  | cons op ops ih =>
    intro s hs
    show flipsGuarded (run k vdata N ops (step k vdata N s op)).calls = true
    apply ih
    cases op with
    | acquire => exact (createWindowFramebuffer_flag k vdata N s).2 hs
    | present => exact update_guarded k vdata N hwait s hs
    | release => exact (destroyWindowFramebuffer_extends N s).guarded ring_not_pageFlip hs


/-! ## The outstanding flip -/

theorem Extends.mono {p q : Call → Bool} {s t : State} (h : Extends p s t)
    (hpq : ∀ c, p c = true → q c = true) : Extends q s t := by
  obtain ⟨new, e, hp⟩ := h
  exact ⟨new, e, fun c hc => hpq c (hp c hc)⟩

theorem ring_quiet (c : Call) (h : Call.isRing c = true) : Call.isQuiet c = true := by
  cases c <;> simp [Call.isRing, Call.isQuiet] at h ⊢

theorem quiet_not_pageFlip (c : Call) (h : Call.isQuiet c = true) :
    Call.isPageFlip c = false := by
  cases c <;> simp [Call.isQuiet, Call.isPageFlip] at h ⊢

theorem outstanding_append (l1 : List Call) : ∀ (out : Bool) (l2 : List Call),
    outstanding out (l1 ++ l2) = (outstanding out l1).bind (fun o => outstanding o l2) := by
  induction l1 with
  | nil => intro out l2; rfl
  | cons c cs ih =>
    intro out l2
    cases c <;> rw [List.cons_append] <;> simp only [outstanding] <;>
      first
        | exact ih _ _
        | (split <;> simp [ih])

theorem outstanding_of_quiet (l : List Call) : ∀ out : Bool,
    (∀ c ∈ l, Call.isQuiet c = true) → outstanding out l = some out := by
  induction l with
  | nil => intro out _; rfl
  | cons c cs ih =>
    intro out h
    have hc := h c (List.mem_cons_self c cs)
    have hcs := ih out (fun d hd => h d (List.mem_cons_of_mem c hd))
    cases c <;> simp [Call.isQuiet] at hc <;> simpa [outstanding] using hcs

/-- Extending the log with quiet calls changes nothing about the outstanding
flip. -/
theorem Extends.outstanding {s t : State} (h : Extends Call.isQuiet s t) (out o : Bool)
    (hs : outstanding out s.calls = some o) : outstanding out t.calls = some o := by
  obtain ⟨new, e, hnew⟩ := h
  rw [e, outstanding_append, hs]
  exact outstanding_of_quiet new o hnew

/-- All that `KMSDRM_InitCrtc` adds to the log are quiet calls. -/
theorem initCrtc_extends (k : Kernel) (vdata : SDL_VideoData) (N : Nat) (s : State) :
    Extends Call.isQuiet s (KMSDRM_InitCrtc k vdata N s).2 := by
  cases h : s.crtc_ready with
  | true =>
    rw [initCrtc_bound k vdata N s h]
    exact Extends.refl _ s
  | false =>
    have hb : ∀ r t, KMSDRM_CreateDrmFBs k N s = (r, t) → Extends Call.isQuiet s t := by
      intro r t ht
      have e := createLoop_extends k N 0 s
      have ht2 : (KMSDRM_CreateDrmFBs.loop k 0 N s).2 = t := by
        unfold KMSDRM_CreateDrmFBs at ht
        rw [ht]
      rw [ht2] at e
      exact e.mono ring_quiet
    have hd : ∀ t, Extends Call.isQuiet t (KMSDRM_DestroyWindowFramebuffer N t) := fun t =>
      (destroyWindowFramebuffer_extends N t).mono ring_quiet
    have hlog : ∀ (t : State) (ok : Bool), Extends Call.isQuiet s t →
        Extends Call.isQuiet s
          { t with front_drm_fb := 0,
                   calls := t.calls ++ [Call.setCrtc vdata.crtc_id (t.fb 0).id 0 0
                     vdata.saved_conn_id 1 vdata.cur_mode ok] } := by
      intro t ok ht
      exact Extends.log (Call.setCrtc vdata.crtc_id (t.fb 0).id 0 0
        vdata.saved_conn_id 1 vdata.cur_mode ok) ht rfl
    rcases initCrtc_cases k vdata N s h with ⟨t, hc, hi⟩ | ⟨t, hc, _, hi⟩ | ⟨t, hc, _, hi⟩
    · rw [hi]
      exact (hb _ _ hc).trans (hd t)
    · rw [hi]
      exact (hlog t false (hb _ _ hc)).trans (hd _)
    · rw [hi]
      exact hlog t true (hb _ _ hc)

theorem createWindowFramebuffer_extends (k : Kernel) (vdata : SDL_VideoData) (N : Nat)
    (s : State) : Extends Call.isQuiet s (KMSDRM_CreateWindowFramebuffer k vdata N s).2 := by
  cases h : s.crtc_ready with
  | true =>
    rw [createWindowFramebuffer_bound k vdata N s h]
    exact Extends.refl _ s
  | false =>
    rw [createWindowFramebuffer_unbound k vdata N s h]
    have hi := initCrtc_extends k vdata N s
    rcases hc : KMSDRM_InitCrtc k vdata N s with ⟨r, t⟩
    rw [hc] at hi
    cases r <;> exact hi

/-- The three ways through `KMSDRM_UpdateWindowFramebuffer` when the wait returns
true only with `waiting_for_flip` false: what is added to the log and the value
`waiting_for_flip` ends with. -/
theorem update_flag (k : Kernel) (vdata : SDL_VideoData) (N : Nat)
    (hwait : ∀ hist timeout flag, (k.waitPageFlip hist timeout flag).1 = true →
      (k.waitPageFlip hist timeout flag).2 = false)
    (s : State) :
    (∃ f, k.waitPageFlip s.calls (-1) s.waiting_for_flip = (false, f) ∧
        (KMSDRM_UpdateWindowFramebuffer k vdata N s).2.calls = s.calls ++
          [Call.waitPageFlip (-1) s.waiting_for_flip false f] ∧
        (KMSDRM_UpdateWindowFramebuffer k vdata N s).2.waiting_for_flip = f) ∨
    (k.waitPageFlip s.calls (-1) s.waiting_for_flip = (true, false) ∧
        (KMSDRM_UpdateWindowFramebuffer k vdata N s).2.calls = s.calls ++
          [Call.waitPageFlip (-1) s.waiting_for_flip true false,
           Call.pageFlip vdata.crtc_id (s.fb s.front_drm_fb).id true false] ∧
        (KMSDRM_UpdateWindowFramebuffer k vdata N s).2.waiting_for_flip = false) ∨
    (k.waitPageFlip s.calls (-1) s.waiting_for_flip = (true, false) ∧
        (KMSDRM_UpdateWindowFramebuffer k vdata N s).2.calls = s.calls ++
          [Call.waitPageFlip (-1) s.waiting_for_flip true false,
           Call.pageFlip vdata.crtc_id (s.fb s.front_drm_fb).id true true] ∧
        (KMSDRM_UpdateWindowFramebuffer k vdata N s).2.waiting_for_flip = true) := by
  have hclear : ∀ f, k.waitPageFlip s.calls (-1) s.waiting_for_flip = (true, f) → f = false := by
    intro f hw
    have := hwait s.calls (-1) s.waiting_for_flip
    rw [hw] at this
    exact this rfl
  rcases update_cases k vdata N s with ⟨f, hw, hu⟩ | ⟨f, hw, hu⟩ | ⟨f, hw, hu⟩
  · exact Or.inl ⟨f, hw, by rw [hu], by rw [hu]⟩
  · have hf := hclear f hw
    subst hf
    exact Or.inr (Or.inl ⟨hw, by rw [hu], by rw [hu]⟩)
  · have hf := hclear f hw
    subst hf
    exact Or.inr (Or.inr ⟨hw, by rw [hu], by rw [hu]⟩)

/-- A present keeps `waiting_for_flip` equal to what the log says about the
outstanding flip. -/
theorem update_outstanding (k : Kernel) (vdata : SDL_VideoData) (N : Nat)
    (hwait : ∀ hist timeout flag, (k.waitPageFlip hist timeout flag).1 = true →
      (k.waitPageFlip hist timeout flag).2 = false)
    (s : State) (out : Bool) (hs : outstanding out s.calls = some s.waiting_for_flip) :
    outstanding out (KMSDRM_UpdateWindowFramebuffer k vdata N s).2.calls
      = some (KMSDRM_UpdateWindowFramebuffer k vdata N s).2.waiting_for_flip := by
  rcases update_flag k vdata N hwait s with ⟨f, _, hc, hf⟩ | ⟨_, hc, hf⟩ | ⟨_, hc, hf⟩ <;>
    rw [hc, hf, outstanding_append, hs] <;> simp [outstanding]

theorem run_outstanding (k : Kernel) (vdata : SDL_VideoData) (N : Nat)
    (hwait : ∀ hist timeout flag, (k.waitPageFlip hist timeout flag).1 = true →
      (k.waitPageFlip hist timeout flag).2 = false)
    (out : Bool) (ops : List Op) : ∀ s : State,
      outstanding out s.calls = some s.waiting_for_flip →
      outstanding out (run k vdata N ops s).calls
        = some (run k vdata N ops s).waiting_for_flip := by
  induction ops with
  | nil => intro s hs; exact hs
  | cons op ops ih =>
    intro s hs
    show outstanding out (run k vdata N ops (step k vdata N s op)).calls
      = some (run k vdata N ops (step k vdata N s op)).waiting_for_flip
    apply ih
    cases op with
    | acquire =>
      show outstanding out (KMSDRM_CreateWindowFramebuffer k vdata N s).2.calls
        = some (KMSDRM_CreateWindowFramebuffer k vdata N s).2.waiting_for_flip
      rw [(createWindowFramebuffer_flag k vdata N s).1]
      exact (createWindowFramebuffer_extends k vdata N s).outstanding out _ hs
    | present => exact update_outstanding k vdata N hwait s out hs
    | release =>
      show outstanding out (KMSDRM_DestroyWindowFramebuffer N s).calls
        = some (KMSDRM_DestroyWindowFramebuffer N s).waiting_for_flip
      rw [destroyWindowFramebuffer_flag N s]
      exact ((destroyWindowFramebuffer_extends N s).mono ring_quiet).outstanding out _ hs

/-- What the two readings of a log reject: a page flip after a wait that left
`waiting_for_flip` true, after no wait at all, or requested before the flag is
set; a wait called with the flag false while an accepted flip has not completed;
a second page flip with the first still outstanding.  With a wait that returns
true while a flip is outstanding, a present produces a log of the first kind. -/
theorem flipLog_rejects :
    flipsGuarded [Call.waitPageFlip (-1) true true true, Call.pageFlip 40 106 true true]
        = false ∧
      flipsGuarded [Call.pageFlip 40 106 true true] = false ∧
      flipsGuarded [Call.waitPageFlip (-1) false true false, Call.pageFlip 40 106 false true]
        = false ∧
      outstanding false
        [Call.waitPageFlip (-1) false true false, Call.pageFlip 40 106 true true,
         Call.waitPageFlip (-1) false true false, Call.pageFlip 40 101 true true] = none ∧
      outstanding false
        [Call.waitPageFlip (-1) false true false, Call.pageFlip 40 106 true true,
         Call.pageFlip 40 101 true true] = none ∧
      flipsGuarded (KMSDRM_UpdateWindowFramebuffer kernelCareless vdata0 2
        { bound2 with calls := [], waiting_for_flip := true }).2.calls = false ∧
      outstanding true (KMSDRM_UpdateWindowFramebuffer kernelCareless vdata0 2
        { bound2 with calls := [], waiting_for_flip := true }).2.calls = none := by
  decide

/-- C9: with `KMSDRM_WaitPageFlip` returning true only with `waiting_for_flip`
false, in every sequence of acquire, present and release calls:
every page-flip request in the log directly follows a wait that returned true
and left `waiting_for_flip` false, and is made with `waiting_for_flip` already
true, so the flag is set between the wait and the submission;
`waiting_for_flip` always equals what the log says about the outstanding flip
(true from an accepted flip until a wait clears it), every wait is called with
that value, and no page flip is requested while a flip is outstanding.
Acquire and release leave `waiting_for_flip` as it is.  A present either stops at
a wait that returned false, with the flag as the wait left it; or requests the
flip of the front slot with the flag true after a wait that left it false, and
ends with the flag false when the kernel rejects the flip and true when it
accepts it. -/
theorem C9_one_flip_outstanding (k : Kernel) (vdata : SDL_VideoData) (N : Nat)
    (hwait : ∀ hist timeout flag, (k.waitPageFlip hist timeout flag).1 = true →
      (k.waitPageFlip hist timeout flag).2 = false) :
    (∀ (ops : List Op) (s : State), flipsGuarded s.calls = true →
        flipsGuarded (run k vdata N ops s).calls = true) ∧
      (∀ (ops : List Op) (s : State) (out : Bool),
        outstanding out s.calls = some s.waiting_for_flip →
        outstanding out (run k vdata N ops s).calls
          = some (run k vdata N ops s).waiting_for_flip) ∧
      (∀ s : State, (KMSDRM_CreateWindowFramebuffer k vdata N s).2.waiting_for_flip
        = s.waiting_for_flip) ∧
      (∀ s : State, (KMSDRM_DestroyWindowFramebuffer N s).waiting_for_flip
        = s.waiting_for_flip) ∧
      (∀ s : State,
        (∃ f, k.waitPageFlip s.calls (-1) s.waiting_for_flip = (false, f) ∧
            (KMSDRM_UpdateWindowFramebuffer k vdata N s).2.calls = s.calls ++
              [Call.waitPageFlip (-1) s.waiting_for_flip false f] ∧
            (KMSDRM_UpdateWindowFramebuffer k vdata N s).2.waiting_for_flip = f) ∨
        (k.waitPageFlip s.calls (-1) s.waiting_for_flip = (true, false) ∧
            (KMSDRM_UpdateWindowFramebuffer k vdata N s).2.calls = s.calls ++
              [Call.waitPageFlip (-1) s.waiting_for_flip true false,
               Call.pageFlip vdata.crtc_id (s.fb s.front_drm_fb).id true false] ∧
            (KMSDRM_UpdateWindowFramebuffer k vdata N s).2.waiting_for_flip = false) ∨
        (k.waitPageFlip s.calls (-1) s.waiting_for_flip = (true, false) ∧
            (KMSDRM_UpdateWindowFramebuffer k vdata N s).2.calls = s.calls ++
              [Call.waitPageFlip (-1) s.waiting_for_flip true false,
               Call.pageFlip vdata.crtc_id (s.fb s.front_drm_fb).id true true] ∧
            (KMSDRM_UpdateWindowFramebuffer k vdata N s).2.waiting_for_flip = true)) :=
  ⟨fun ops s => run_guarded k vdata N hwait ops s,
    fun ops s out => run_outstanding k vdata N hwait out ops s,
    fun s => (createWindowFramebuffer_flag k vdata N s).1,
    destroyWindowFramebuffer_flag N,
    update_flag k vdata N hwait⟩

/-- The hypothesis of the C9 theorem holds for the kernel whose wait returns true
exactly when no flip is outstanding: from the fresh two-slot window, acquire,
present, present, release, acquire, present gives a log that passes both
readings, ends with a flip outstanding and holds one page-flip request, the
second and third present having stopped at the wait; and the present on the
bound window adds the wait and the accepted flip of framebuffer 106 and leaves
`waiting_for_flip` true. -/
theorem C9_one_flip_outstanding_witness :
    flipsGuarded (run kernelOk vdata0 2
        [Op.acquire, Op.present, Op.present, Op.release, Op.acquire, Op.present]
        (fresh 2)).calls = true ∧
      outstanding false (run kernelOk vdata0 2
        [Op.acquire, Op.present, Op.present, Op.release, Op.acquire, Op.present]
        (fresh 2)).calls = some true ∧
      (run kernelOk vdata0 2
        [Op.acquire, Op.present, Op.present, Op.release, Op.acquire, Op.present]
        (fresh 2)).calls.countP Call.isPageFlip = 1 ∧
      (KMSDRM_UpdateWindowFramebuffer kernelOk vdata0 2 bound2).2.calls = bound2.calls ++
        [Call.waitPageFlip (-1) false true false, Call.pageFlip 40 106 true true] ∧
      (KMSDRM_UpdateWindowFramebuffer kernelOk vdata0 2 bound2).2.waiting_for_flip = true := by
  have h := C9_one_flip_outstanding kernelOk vdata0 2
    (fun _ _ flag h => by cases flag <;> simp_all [kernelOk])
  refine ⟨h.1 _ (fresh 2) rfl, (h.2.1 _ (fresh 2) false rfl).trans (by decide), by decide,
    ?_, ?_⟩
  · rcases h.2.2.2.2 bound2 with ⟨f, hw, _⟩ | ⟨_, hc, _⟩ | ⟨_, hc, _⟩
    · exact absurd hw (by cases f <;> decide)
    · exact absurd hc (by decide)
    · exact hc
  · rcases h.2.2.2.2 bound2 with ⟨f, hw, _⟩ | ⟨_, _, hf⟩ | ⟨_, _, hf⟩
    · exact absurd hw (by cases f <;> decide)
    · exact absurd hf (by decide)
    · exact hf
